import Mathlib

/-!
# GCSSource reconciler (`pkg/reconciler/gcs/gcs.go`)

A shallow embedding of the reconciliation pass of the GCSSource controller.

* Go values mutated through a pointer (`csr *v1alpha1.GCSSource`) are threaded
  explicitly: every embedded function returns the resource it leaves behind.
* Every call that leaves the process (Pub/Sub, Cloud Storage, the Kubernetes
  API, the informer cache, the UUID source) is a field of `Cloud σ`, a record
  of operations over an arbitrary external state `σ`.  The embedded functions
  record each such call, in order, in the `log` of the state they thread.
* A Go `error` is `Option GoError` (`none` is `nil`); a `(value, error)` pair
  is `Except GoError value`.
* `World` with `modelCloud` is one concrete external world: topics per
  project, relays by namespace/name, notifications per bucket, a table of
  resolvable sinks, the resources held by the informer cache, and switches
  that make single operations fail.
-/

namespace GCS

/-! ## Errors -/

/-- The gRPC code `codes.NotFound`. -/
def codes.NotFound : Nat := 5

/-- The gRPC code `codes.InvalidArgument`. -/
def codes.InvalidArgument : Nat := 3

/-- The gRPC code `codes.AlreadyExists`. -/
def codes.AlreadyExists : Nat := 6

/-- The gRPC code `codes.Unavailable`. -/
def codes.Unavailable : Nat := 14

/-- The reason `metav1.StatusReasonNotFound`. -/
def StatusReasonNotFound : String := "NotFound"

/-- A Go `error` value, by the shapes that reach the reconciler: an error
carrying a gRPC status (`gstatus.FromError` succeeds on it; the Pub/Sub client
speaks gRPC), a Kubernetes API status error (it has a reason), a
`*googleapi.Error` with its HTTP status (the Cloud Storage client speaks
HTTP/JSON; such an error carries no gRPC status), and any other error. -/
inductive GoError where
  | grpc (code : Nat) (msg : String)
  | api (reason : String) (msg : String)
  | http (status : Nat) (msg : String)
  | plain (msg : String)
  deriving DecidableEq, Repr

/-- The pair `gstatus.FromError(err)` returns for a non-nil error: the status
code, and whether the error carried a gRPC status at all. -/
def gstatus.FromError : GoError → Nat × Bool
  | .grpc code _ => (code, true)
  | .api _ _ => (2, false)
  | .http _ _ => (2, false)
  | .plain _ => (2, false)

/-- The test `errors.IsNotFound(err)` of `k8s.io/apimachinery/pkg/api/errors`. -/
def errors.IsNotFound : Option GoError → Bool
  | some (.api reason _) => reason == StatusReasonNotFound
  | _ => false

/-! ## The resource (`pkg/apis/gcs/v1alpha1/types.go`) -/

/-- The type `corev1.ObjectReference`, by the fields that identify the referent. -/
structure ObjectReference where
  Kind : String
  Namespace : String
  Name : String
  APIVersion : String
  deriving DecidableEq, Repr

/-- The type `GCSSourceSpec`. -/
structure GCSSourceSpec where
  ServiceAccountName : String
  GoogleCloudProject : String
  Bucket : String
  EventTypes : List String
  ObjectNamePrefix : String
  CustomAttributes : List (String × String)
  PayloadFormat : String
  Sink : Option ObjectReference
  deriving DecidableEq, Repr

/-- The type `GCSSourceStatus`.

Modelled from the spec: the field `SinkURI`.  `reconcileGCSSource` assigns
`csr.Status.SinkURI`, and the declaration of that field is not in the
`types.go` at hand; the spec lists the status as
`{sinkURI, topicID, notificationID}`, all strings. -/
structure GCSSourceStatus where
  SinkURI : String
  NotificationID : String
  Topic : String
  deriving DecidableEq, Repr

/-- The part of `metav1.ObjectMeta` the reconciler reads or writes.  A Go slice
is `Option (List _)`, with `none` the nil slice; `DeletionTimestamp` is a
pointer, with `none` the nil pointer. -/
structure ObjectMeta where
  Name : String
  Namespace : String
  ResourceVersion : String
  DeletionTimestamp : Option Nat
  Finalizers : Option (List String)
  deriving DecidableEq, Repr

/-- The type `GCSSource`; the embedded `ObjectMeta` is the field `meta`. -/
structure GCSSource where
  meta : ObjectMeta
  Spec : GCSSourceSpec
  Status : GCSSourceStatus
  deriving DecidableEq, Repr

/-- The type `storage.Notification`, by the fields of the request the
reconciler builds and the ID the service assigns. -/
structure Notification where
  ID : String
  TopicProjectID : String
  TopicID : String
  PayloadFormat : String
  deriving DecidableEq, Repr

/-- The constant `storage.JSONPayload`. -/
def storage.JSONPayload : String := "JSON_API_V1"

/-- The constant `storage.NoPayload`. -/
def storage.NoPayload : String := "NONE"

/-- The type `GcpPubSubSource` of knative eventing-sources: the relay. -/
structure GcpPubSubSource where
  Name : String
  Namespace : String
  GoogleCloudProject : String
  Topic : String
  Sink : Option ObjectReference
  ServiceAccountName : String
  StatusSinkURI : String
  deriving DecidableEq, Repr

def controllerAgentName : String := "gcs-controller"

def finalizerName : String := controllerAgentName

/-! ## String sets (`k8s.io/apimachinery/pkg/util/sets`) -/

/-- The elements of a Go slice; the nil slice has none. -/
def sliceElems : Option (List String) → List String
  | none => []
  | some l => l

/-- The order of Go on strings: bytewise, which on UTF-8 is the order of the
lists of code points. -/
def strLess (a b : String) : Bool :=
  decide (a.data < b.data)

/-- Insertion of one key in a strictly increasing list, keeping it so. -/
def insertKey (x : String) : List String → List String
  | [] => [x]
  | y :: ys =>
    if strLess x y then x :: y :: ys else if x = y then y :: ys else y :: insertKey x ys

/-- A `sets.String` is a Go map from string to the empty struct; it is kept
here as the strictly increasing list of its keys. -/
def sets.NewString (items : Option (List String)) : List String :=
  (sliceElems items).foldr insertKey []

def sets.Insert (s : List String) (item : String) : List String :=
  insertKey item s

def sets.Delete (s : List String) (item : String) : List String :=
  s.filter (fun k => k ≠ item)

/-- The method `List` of `sets.String`: the keys, sorted, in a slice that is
made with `make` and so is not nil. -/
def sets.List (s : List String) : Option (List String) :=
  some s

/-! ## The outside world -/

/-- The calls the reconciler makes to the outside, one constructor per call
site, with the arguments passed. -/
inductive Call where
  | GetSinkURI (sink : Option ObjectReference) (ns : String)
  | uuidNew
  | pubsubNewClient (project : String)
  | topicExists (project id : String)
  | CreateTopic (project id : String)
  | topicDelete (project id : String)
  | storageNewClient
  | bucketNotifications (bucket : String)
  | AddNotification (bucket : String) (n : Notification)
  | DeleteNotification (bucket id : String)
  | pubsubSourceGet (ns name : String)
  | pubsubSourceCreate (ns : String) (p : GcpPubSubSource)
  | listerGet (ns name : String)
  | clientUpdate (ns : String) (csr : GCSSource)
  deriving DecidableEq, Repr

/-- The requests that create an external object. -/
def Call.isCreate : Call → Bool
  | .CreateTopic _ _ => true
  | .AddNotification _ _ => true
  | .pubsubSourceCreate _ _ => true
  | _ => false

/-- The requests that delete an external object. -/
def Call.isDelete : Call → Bool
  | .topicDelete _ _ => true
  | .DeleteNotification _ _ => true
  | _ => false

/-- The calls addressed to the topic, relay or notification services: client
construction, look-ups, creates and deletes. -/
def Call.isExternalOp : Call → Bool
  | .pubsubNewClient _ => true
  | .topicExists _ _ => true
  | .CreateTopic _ _ => true
  | .topicDelete _ _ => true
  | .storageNewClient => true
  | .bucketNotifications _ => true
  | .AddNotification _ _ => true
  | .DeleteNotification _ _ => true
  | .pubsubSourceGet _ _ => true
  | .pubsubSourceCreate _ _ => true
  | _ => false

/-- The write of a resource back to the API server. -/
def Call.isUpdate : Call → Bool
  | .clientUpdate _ _ => true
  | _ => false

/-- The operations of the outside world over its state `σ`.  Each takes the
state before the call and gives the answer and the state after it.

Modelled from the spec: `GetSinkURI`, a function of this package whose file is
not at hand; the spec gives it as `resolve(reference, namespace) -> uri |
NotFoundError`, an opaque external collaborator. -/
structure Cloud (σ : Type) where
  GetSinkURI : σ → Option ObjectReference → String → Except GoError String × σ
  uuidNew : σ → String × σ
  pubsubNewClient : σ → String → Option GoError × σ
  topicExists : σ → String → String → Except GoError Bool × σ
  CreateTopic : σ → String → String → Option GoError × σ
  topicDelete : σ → String → String → Option GoError × σ
  storageNewClient : σ → Option GoError × σ
  bucketNotifications : σ → String → Except GoError (List (String × Notification)) × σ
  AddNotification : σ → String → Notification → Except GoError Notification × σ
  DeleteNotification : σ → String → String → Option GoError × σ
  pubsubSourceGet : σ → String → String → Except GoError GcpPubSubSource × σ
  pubsubSourceCreate : σ → String → GcpPubSubSource → Except GoError GcpPubSubSource × σ
  listerGet : σ → String → String → Except GoError GCSSource × σ
  clientUpdate : σ → String → GCSSource → Except GoError GCSSource × σ

/-- The state a pass threads: the outside world and the calls made so far. -/
structure St (σ : Type) where
  world : σ
  log : List Call

/-- One call to the outside: it is recorded, and the world answers. -/
def St.call {σ α : Type} (s : St σ) (c : Call) (op : σ → α × σ) : α × St σ :=
  ((op s.world).1, ⟨(op s.world).2, s.log ++ [c]⟩)

/-! ## The reconciler -/

/-- Modelled from the spec: `resources.MakePubSub`, a function of this
repository whose file is not at hand; the spec gives the relay as keyed by the
name and namespace of the source and wired to consume from the topic and
forward to the sink. -/
def resources.MakePubSub (csr : GCSSource) (_image : String) : GcpPubSubSource :=
  { Name := csr.meta.Name
    Namespace := csr.meta.Namespace
    GoogleCloudProject := csr.Spec.GoogleCloudProject
    Topic := csr.Status.Topic
    Sink := csr.Spec.Sink
    ServiceAccountName := csr.Spec.ServiceAccountName
    StatusSinkURI := "" }

def addFinalizer (csr : GCSSource) : GCSSource :=
  let finalizers := sets.NewString csr.meta.Finalizers
  let finalizers := sets.Insert finalizers finalizerName
  { csr with meta := { csr.meta with Finalizers := sets.List finalizers } }

def removeFinalizer (csr : GCSSource) : GCSSource :=
  let finalizers := sets.NewString csr.meta.Finalizers
  let finalizers := sets.Delete finalizers finalizerName
  { csr with meta := { csr.meta with Finalizers := sets.List finalizers } }

def reconcileTopic {σ : Type} (c : Cloud σ) (csr : GCSSource) (s : St σ) :
    Option GoError × GCSSource × St σ :=
  let gen := s.call .uuidNew c.uuidNew
  let csr1 : GCSSource :=
    if csr.Status.Topic = "" then
      { csr with Status := { csr.Status with Topic := "gcs-" ++ gen.1 } }
    else csr
  let s1 : St σ := if csr.Status.Topic = "" then gen.2 else s
  match s1.call (.pubsubNewClient csr1.Spec.GoogleCloudProject)
      (fun w => c.pubsubNewClient w csr1.Spec.GoogleCloudProject) with
  | (some err, s2) => (some err, csr1, s2)
  | (none, s2) =>
    match s2.call (.topicExists csr1.Spec.GoogleCloudProject csr1.Status.Topic)
        (fun w => c.topicExists w csr1.Spec.GoogleCloudProject csr1.Status.Topic) with
    | (.error err, s3) => (some err, csr1, s3)
    | (.ok true, s3) => (none, csr1, s3)
    | (.ok false, s3) =>
      match s3.call (.CreateTopic csr1.Spec.GoogleCloudProject csr1.Status.Topic)
          (fun w => c.CreateTopic w csr1.Spec.GoogleCloudProject csr1.Status.Topic) with
      | (some err, s4) => (some err, csr1, s4)
      | (none, s4) => (none, csr1, s4)

def deleteTopic {σ : Type} (c : Cloud σ) (project topic : String) (s : St σ) :
    Option GoError × St σ :=
  match s.call (.pubsubNewClient project) (fun w => c.pubsubNewClient w project) with
  | (some err, s1) => (some err, s1)
  | (none, s1) =>
    match s1.call (.topicDelete project topic) (fun w => c.topicDelete w project topic) with
    | (none, s2) => (none, s2)
    | (some err, s2) =>
      if !(gstatus.FromError err).2 then (some err, s2)
      else if (gstatus.FromError err).1 ≠ codes.NotFound then (some err, s2)
      else (none, s2)

def deleteNotification {σ : Type} (c : Cloud σ) (gcs : GCSSource) (s : St σ) :
    Option GoError × St σ :=
  match s.call .storageNewClient c.storageNewClient with
  | (some err, s1) => (some err, s1)
  | (none, s1) =>
    match s1.call (.DeleteNotification gcs.Spec.Bucket gcs.Status.NotificationID)
        (fun w => c.DeleteNotification w gcs.Spec.Bucket gcs.Status.NotificationID) with
    | (none, s2) => (none, s2)
    | (some err, s2) =>
      if !(gstatus.FromError err).2 then (some err, s2)
      else if (gstatus.FromError err).1 ≠ codes.NotFound then (some err, s2)
      else (none, s2)

def reconcilePubSub {σ : Type} (c : Cloud σ) (csr : GCSSource) (s : St σ) :
    Except GoError GcpPubSubSource × St σ :=
  match s.call (.pubsubSourceGet csr.meta.Namespace csr.meta.Name)
      (fun w => c.pubsubSourceGet w csr.meta.Namespace csr.meta.Name) with
  | (.ok existing, s1) => (.ok existing, s1)
  | (.error err, s1) =>
    if errors.IsNotFound (some err) then
      s1.call (.pubsubSourceCreate csr.meta.Namespace (resources.MakePubSub csr "testing"))
        (fun w => c.pubsubSourceCreate w csr.meta.Namespace (resources.MakePubSub csr "testing"))
    else (.error err, s1)

def reconcileNotification {σ : Type} (c : Cloud σ) (gcs : GCSSource) (s : St σ) :
    Except GoError Notification × St σ :=
  match s.call .storageNewClient c.storageNewClient with
  | (some err, s1) => (.error err, s1)
  | (none, s1) =>
    match s1.call (.bucketNotifications gcs.Spec.Bucket)
        (fun w => c.bucketNotifications w gcs.Spec.Bucket) with
    | (.error err, s2) => (.error err, s2)
    | (.ok notifications, s2) =>
      let request : Notification :=
        { ID := ""
          TopicProjectID := gcs.Spec.GoogleCloudProject
          TopicID := gcs.Status.Topic
          PayloadFormat := storage.JSONPayload }
      let create := s2.call (.AddNotification gcs.Spec.Bucket request)
        (fun w => c.AddNotification w gcs.Spec.Bucket request)
      if gcs.Status.NotificationID ≠ "" then
        match notifications.lookup gcs.Status.NotificationID with
        | some existing => (.ok existing, s2)
        | none => create
      else create

def reconcileGCSSource {σ : Type} (c : Cloud σ) (csr : GCSSource) (s : St σ) :
    Option GoError × GCSSource × St σ :=
  let deletionTimestamp := csr.meta.DeletionTimestamp
  let resolved := s.call (.GetSinkURI csr.Spec.Sink csr.meta.Namespace)
    (fun w => c.GetSinkURI w csr.Spec.Sink csr.meta.Namespace)
  let s1 := resolved.2
  match resolved.1, deletionTimestamp with
  | .error err, none => (some err, csr, s1)
  | r, _ =>
    let uri : String := match r with
      | .ok u => u
      | .error _ => ""
    if deletionTimestamp ≠ none then
      match deleteNotification c csr s1 with
      | (some err, s2) => (some err, csr, s2)
      | (none, s2) =>
        match deleteTopic c csr.Spec.GoogleCloudProject csr.Status.Topic s2 with
        | (some err, s3) => (some err, csr, s3)
        | (none, s3) =>
          (none, removeFinalizer { csr with Status := { csr.Status with Topic := "" } }, s3)
    else
      match reconcileTopic c csr s1 with
      | (some err, csr1, s2) => (some err, csr1, s2)
      | (none, csr1, s2) =>
        let csr2 := addFinalizer csr1
        let csr3 : GCSSource := { csr2 with Status := { csr2.Status with SinkURI := uri } }
        match reconcilePubSub c csr3 s2 with
        | (.error err, s3) => (some err, csr3, s3)
        | (.ok _, s3) =>
          match reconcileNotification c csr3 s3 with
          | (.error err, s4) => (some err, csr3, s4)
          | (.ok notification, s4) =>
            (none, { csr3 with Status := { csr3.Status with NotificationID := notification.ID } }, s4)

/-- The test `reflect.DeepEqual` on two `GCSSourceStatus` values. -/
def reflect.DeepEqualStatus (a b : GCSSourceStatus) : Bool :=
  decide (a = b)

/-- The test `reflect.DeepEqual` on two `ObjectMeta` values: a nil slice and
an empty slice are different. -/
def reflect.DeepEqualMeta (a b : ObjectMeta) : Bool :=
  decide (a = b)

/-- The test `equality.Semantic.DeepEqual` on two `GCSSourceStatus` values. -/
def equality.Semantic.DeepEqualStatus (a b : GCSSourceStatus) : Bool :=
  decide (a = b)

/-- The test `equality.Semantic.DeepEqual` on two `ObjectMeta` values: as
`reflect.DeepEqual`, but a nil slice and an empty slice are equal. -/
def equality.Semantic.DeepEqualMeta (a b : ObjectMeta) : Bool :=
  decide (a.Name = b.Name) && decide (a.Namespace = b.Namespace) &&
    decide (a.ResourceVersion = b.ResourceVersion) &&
    decide (a.DeletionTimestamp = b.DeletionTimestamp) &&
    decide (sliceElems a.Finalizers = sliceElems b.Finalizers)

/-- The pieces of a key between its slashes: `strings.Split(key, "/")`. -/
def splitOnSlash : List Char → List (List Char)
  | [] => [[]]
  | ch :: cs =>
    if ch = '/' then [] :: splitOnSlash cs
    else
      match splitOnSlash cs with
      | [] => [[ch]]
      | p :: ps => (ch :: p) :: ps

/-- The function `cache.SplitMetaNamespaceKey` of client-go. -/
def SplitMetaNamespaceKey (key : String) : Except GoError (String × String) :=
  match splitOnSlash key.data with
  | [name] => .ok ("", String.mk name)
  | [ns, name] => .ok (String.mk ns, String.mk name)
  | _ => .error (.plain ("unexpected key format: " ++ key))

def update {σ : Type} (c : Cloud σ) (desired : GCSSource) (s : St σ) :
    Except GoError GCSSource × St σ :=
  match s.call (.listerGet desired.meta.Namespace desired.meta.Name)
      (fun w => c.listerGet w desired.meta.Namespace desired.meta.Name) with
  | (.error err, s1) => (.error err, s1)
  | (.ok csr, s1) =>
    if !reflect.DeepEqualStatus csr.Status desired.Status ||
        !reflect.DeepEqualMeta csr.meta desired.meta then
      let existing : GCSSource :=
        { csr with
          Status := desired.Status
          meta := { csr.meta with Finalizers := desired.meta.Finalizers } }
      s1.call (.clientUpdate desired.meta.Namespace existing)
        (fun w => c.clientUpdate w desired.meta.Namespace existing)
    else (.ok csr, s1)

def Reconcile {σ : Type} (c : Cloud σ) (key : String) (s : St σ) : Option GoError × St σ :=
  match SplitMetaNamespaceKey key with
  | .error _ => (none, s)
  | .ok (ns, name) =>
    match s.call (.listerGet ns name) (fun w => c.listerGet w ns name) with
    | (.error err, s1) =>
      if errors.IsNotFound (some err) then (none, s1) else (some err, s1)
    | (.ok original, s1) =>
      match reconcileGCSSource c original s1 with
      | (err, csr, s2) =>
        if equality.Semantic.DeepEqualStatus original.Status csr.Status &&
            equality.Semantic.DeepEqualMeta original.meta csr.meta then
          (err, s2)
        else
          match update c csr s2 with
          | (.error uerr, s3) => (some uerr, s3)
          | (.ok _, s3) => (err, s3)

/-! ## A concrete outside world -/

/-- The switches that make one kind of call fail with a given error. -/
structure Faults where
  pubsubNewClient : Option GoError
  topicExists : Option GoError
  CreateTopic : Option GoError
  topicDelete : Option GoError
  storageNewClient : Option GoError
  bucketNotifications : Option GoError
  AddNotification : Option GoError
  DeleteNotification : Option GoError
  pubsubSourceGet : Option GoError
  pubsubSourceCreate : Option GoError
  clientUpdate : Option GoError
  deriving DecidableEq, Repr

/-- No call fails. -/
def Faults.none : Faults :=
  ⟨.none, .none, .none, .none, .none, .none, .none, .none, .none, .none, .none⟩

/-- A state of the outside world: the sinks that resolve, with their URI; the
identifiers the UUID source will give, in order; the topics that exist, by
project and ID; the relays that exist; the notifications that exist, by
bucket; the number of notifications created so far; the resources the informer
cache holds; and the failing calls. -/
structure World where
  sinks : List ((Option ObjectReference × String) × String)
  uuids : List String
  topics : List (String × String)
  relays : List GcpPubSubSource
  notifications : List (String × Notification)
  created : Nat
  store : List GCSSource
  faults : Faults
  deriving DecidableEq, Repr

/-- The relay of a given namespace and name, if it exists. -/
def World.findRelay (w : World) (ns name : String) : Option GcpPubSubSource :=
  w.relays.find? (fun p => p.Namespace = ns ∧ p.Name = name)

/-- The resource of a given namespace and name in the informer cache. -/
def World.findSource (w : World) (ns name : String) : Option GCSSource :=
  w.store.find? (fun r => r.meta.Namespace = ns ∧ r.meta.Name = name)

/-- The notifications of one bucket, keyed by their ID. -/
def World.listing (w : World) (bucket : String) : List (String × Notification) :=
  (w.notifications.filter (fun bn => bn.1 = bucket)).map (fun bn => (bn.2.ID, bn.2))

/-- The ID the storage service gives to the next notification it creates. -/
def World.nextID (w : World) : String :=
  String.mk ('n' :: List.replicate w.created '1')

/-- The answer of the Cloud Storage JSON API for an object that does not
exist: a `*googleapi.Error` with the HTTP status 404. -/
def storageNotFound : GoError :=
  .http 404 "googleapi: Error 404: Not Found, notFound"

/-- The outside world as a `Cloud`: every operation answers from the state
of `World`, unless its switch in `faults` is set.  An absent topic is
answered by Pub/Sub with the gRPC status `NotFound`, an absent notification
by Cloud Storage with `storageNotFound`. -/
def modelCloud : Cloud World where
  GetSinkURI w sink ns :=
    match w.sinks.lookup (sink, ns) with
    | some uri => (.ok uri, w)
    | none => (.error (.api StatusReasonNotFound "sink not found"), w)
  uuidNew w := (w.uuids.headD "", { w with uuids := w.uuids.tail })
  pubsubNewClient w _ := (w.faults.pubsubNewClient, w)
  topicExists w project id :=
    match w.faults.topicExists with
    | some err => (.error err, w)
    | none => (.ok (decide ((project, id) ∈ w.topics)), w)
  CreateTopic w project id :=
    match w.faults.CreateTopic with
    | some err => (some err, w)
    | none =>
      if (project, id) ∈ w.topics then
        (some (.grpc codes.AlreadyExists "topic already exists"), w)
      else (none, { w with topics := (project, id) :: w.topics })
  topicDelete w project id :=
    match w.faults.topicDelete with
    | some err => (some err, w)
    | none =>
      if (project, id) ∈ w.topics then
        (none, { w with topics := w.topics.filter (fun t => t ≠ (project, id)) })
      else (some (.grpc codes.NotFound "topic not found"), w)
  storageNewClient w := (w.faults.storageNewClient, w)
  bucketNotifications w bucket :=
    match w.faults.bucketNotifications with
    | some err => (.error err, w)
    | none => (.ok (w.listing bucket), w)
  AddNotification w bucket n :=
    match w.faults.AddNotification with
    | some err => (.error err, w)
    | none =>
      (.ok { n with ID := w.nextID },
        { w with
          notifications := (bucket, { n with ID := w.nextID }) :: w.notifications
          created := w.created + 1 })
  DeleteNotification w bucket id :=
    match w.faults.DeleteNotification with
    | some err => (some err, w)
    | none =>
      if (w.listing bucket).lookup id ≠ none then
        (none,
          { w with
            notifications := w.notifications.filter (fun bn => ¬ (bn.1 = bucket ∧ bn.2.ID = id)) })
      else (some storageNotFound, w)
  pubsubSourceGet w ns name :=
    match w.faults.pubsubSourceGet with
    | some err => (.error err, w)
    | none =>
      match w.findRelay ns name with
      | some p => (.ok p, w)
      | none => (.error (.api StatusReasonNotFound "gcppubsubsource not found"), w)
  pubsubSourceCreate w ns p :=
    match w.faults.pubsubSourceCreate with
    | some err => (.error err, w)
    | none =>
      match w.findRelay ns p.Name with
      | some _ => (.error (.api "AlreadyExists" "gcppubsubsource already exists"), w)
      | none => (.ok { p with Namespace := ns }, { w with relays := { p with Namespace := ns } :: w.relays })
  listerGet w ns name :=
    match w.findSource ns name with
    | some r => (.ok r, w)
    | none => (.error (.api StatusReasonNotFound "gcssource not found"), w)
  clientUpdate w ns csr :=
    match w.faults.clientUpdate with
    | some err => (.error err, w)
    | none =>
      (.ok csr,
        { w with
          store := w.store.map (fun r =>
            if r.meta.Namespace = ns ∧ r.meta.Name = csr.meta.Name then csr else r) })

/-- A state with nothing logged yet. -/
def St.init {σ : Type} (w : σ) : St σ := ⟨w, []⟩

/-- Whether an error is a gRPC status with the code `NotFound`: the one error
the delete steps take for "the object is already absent". -/
def GoError.isGrpcNotFound : GoError → Bool
  | .grpc code _ => decide (code = codes.NotFound)
  | _ => false

/-- The world holds everything the status of `out` names, and answers the
look-ups: the sink of `out` resolves to `status.sinkURI`; the topic of the
status exists; the relay of the resource exists; the bucket lists the
notification of the status; the finalizers are a strictly increasing list
with the token of the controller; and the look-ups do not fail. -/
def Settled (w : World) (out : GCSSource) : Prop :=
  w.sinks.lookup (out.Spec.Sink, out.meta.Namespace) = some out.Status.SinkURI ∧
  (w.faults.pubsubNewClient = none ∧ w.faults.topicExists = none ∧
    w.faults.pubsubSourceGet = none ∧ w.faults.storageNewClient = none ∧
    w.faults.bucketNotifications = none) ∧
  (out.Status.Topic ≠ "" ∧ (out.Spec.GoogleCloudProject, out.Status.Topic) ∈ w.topics) ∧
  (∃ p, w.findRelay out.meta.Namespace out.meta.Name = some p) ∧
  (out.Status.NotificationID ≠ "" ∧
    ∃ n, (w.listing out.Spec.Bucket).lookup out.Status.NotificationID = some n) ∧
  (∃ l, out.meta.Finalizers = some l ∧ l.Sorted (· < ·) ∧ "gcs-controller" ∈ l)

/-- The calls of a pass that finds everything in place. -/
def settledCalls (out : GCSSource) : List Call :=
  [Call.GetSinkURI out.Spec.Sink out.meta.Namespace,
    Call.pubsubNewClient out.Spec.GoogleCloudProject,
    Call.topicExists out.Spec.GoogleCloudProject out.Status.Topic,
    Call.pubsubSourceGet out.meta.Namespace out.meta.Name,
    Call.storageNewClient,
    Call.bucketNotifications out.Spec.Bucket]

/-! ## Sample resources and worlds -/

def sampleSink : ObjectReference :=
  ⟨"Service", "ns", "sink", "v1"⟩

def sampleSpec : GCSSourceSpec :=
  { ServiceAccountName := ""
    GoogleCloudProject := "p1"
    Bucket := "b1"
    EventTypes := []
    ObjectNamePrefix := ""
    CustomAttributes := []
    PayloadFormat := storage.NoPayload
    Sink := some sampleSink }

/-- A new resource: bucket `b1`, no finalizers, empty status. -/
def sampleNew : GCSSource :=
  { meta := ⟨"src", "ns", "1", none, none⟩
    Spec := sampleSpec
    Status := ⟨"", "", ""⟩ }

/-- A resource being deleted, with topic `t1` and notification `n1` in its
status and the finalizer of the controller. -/
def sampleTerminating : GCSSource :=
  { meta := ⟨"src", "ns", "7", some 1541350000, some ["gcs-controller"]⟩
    Spec := sampleSpec
    Status := ⟨"", "n1", "t1"⟩ }

/-- A resource being deleted whose status is still empty. -/
def sampleTerminatingEmpty : GCSSource :=
  { meta := ⟨"src", "ns", "7", some 1541350000, some ["gcs-controller"]⟩
    Spec := sampleSpec
    Status := ⟨"", "", ""⟩ }

/-- A world where the sink of the samples resolves and nothing else exists. -/
def sampleWorld : World :=
  { sinks := [((some sampleSink, "ns"), "https://sink.example")]
    uuids := ["u0"]
    topics := []
    relays := []
    notifications := []
    created := 0
    store := [sampleNew]
    faults := Faults.none }

/-- A world where no sink resolves, notification `n1` exists on bucket `b1`
and topic `t1` does not exist. -/
def sampleWorldCleanup : World :=
  { sinks := []
    uuids := []
    topics := []
    relays := []
    notifications := [("b1", ⟨"n1", "p1", "t1", "JSON_API_V1"⟩)]
    created := 1
    store := [sampleTerminating]
    faults := Faults.none }

/-- The world of `sampleWorldCleanup` once notification `n1` is gone too:
neither the notification nor the topic of `sampleTerminating` exists. -/
def sampleWorldAbsent : World :=
  { sampleWorldCleanup with notifications := [] }

def sampleUnavailable : GoError :=
  .grpc codes.Unavailable "service unavailable"

/-- The world of `sampleWorldCleanup` with the notification delete failing. -/
def sampleWorldNotifDown : World :=
  { sampleWorldCleanup with
    faults := { Faults.none with DeleteNotification := some sampleUnavailable } }

/-- The world of `sampleWorldCleanup` with the topic delete failing. -/
def sampleWorldTopicDown : World :=
  { sampleWorldCleanup with
    faults := { Faults.none with topicDelete := some sampleUnavailable } }

/-- The world of `sampleWorld` with the check of a topic's existence failing. -/
def sampleWorldExistsDown : World :=
  { sampleWorld with faults := { Faults.none with topicExists := some sampleUnavailable } }

/-- The resource `sampleNew` with a generated topic ID in its status. -/
def sampleNewWithTopic : GCSSource :=
  { sampleNew with Status := ⟨"", "", "gcs-u0"⟩ }

/-- The resource `sampleNew` after one pass in `sampleWorld`. -/
def sampleSettled : GCSSource :=
  { meta := ⟨"src", "ns", "1", none, some ["gcs-controller"]⟩
    Spec := sampleSpec
    Status := ⟨"https://sink.example", "n", "gcs-u0"⟩ }

/-- The world `sampleWorld` after one pass on `sampleNew`. -/
def sampleWorldSettled : World :=
  { sampleWorld with
    uuids := []
    topics := [("p1", "gcs-u0")]
    relays := [⟨"src", "ns", "p1", "gcs-u0", some sampleSink, "", ""⟩]
    notifications := [("b1", ⟨"n", "p1", "gcs-u0", "JSON_API_V1"⟩)]
    created := 1 }

/-- The calls of one pass on `sampleNew` in `sampleWorld`. -/
def sampleFirstCalls : List Call :=
  [Call.GetSinkURI (some sampleSink) "ns", Call.uuidNew, Call.pubsubNewClient "p1",
    Call.topicExists "p1" "gcs-u0", Call.CreateTopic "p1" "gcs-u0",
    Call.pubsubSourceGet "ns" "src",
    Call.pubsubSourceCreate "ns" ⟨"src", "ns", "p1", "gcs-u0", some sampleSink, "", ""⟩,
    Call.storageNewClient, Call.bucketNotifications "b1",
    Call.AddNotification "b1" ⟨"", "p1", "gcs-u0", "JSON_API_V1"⟩]

/-! ## String sets: what `NewString`, `Insert`, `Delete` and `List` give -/

theorem strLess_iff (a b : String) : strLess a b = true ↔ a < b := by
  unfold strLess
  rw [decide_eq_true_iff]
  exact String.lt_iff_toList_lt.symm

theorem mem_insertKey (x z : String) (l : List String) :
    z ∈ insertKey x l ↔ z = x ∨ z ∈ l := by
  induction l with
  | nil => simp [insertKey]
  | cons y ys ih =>
    unfold insertKey
    by_cases h1 : strLess x y = true
    · simp [h1]
    · by_cases h2 : x = y
      · subst h2
        simp [h1]
      · simp only [h1, h2, if_false, List.mem_cons, ih, Bool.false_eq_true]
        tauto

theorem sorted_insertKey (x : String) (l : List String) (h : l.Sorted (· < ·)) :
    (insertKey x l).Sorted (· < ·) := by
  induction l with
  | nil => simp [insertKey]
  | cons y ys ih =>
    have hy : ∀ b ∈ ys, y < b := (List.sorted_cons.mp h).1
    have hys : ys.Sorted (· < ·) := (List.sorted_cons.mp h).2
    unfold insertKey
    by_cases h1 : strLess x y = true
    · rw [if_pos h1]
      have hxy : x < y := (strLess_iff x y).mp h1
      refine List.sorted_cons.mpr ⟨?_, h⟩
      intro b hb
      rcases List.mem_cons.mp hb with rfl | hb
      · exact hxy
      · exact lt_trans hxy (hy b hb)
    · rw [if_neg h1]
      by_cases h2 : x = y
      · rw [if_pos h2]
        exact h
      · rw [if_neg h2]
        have hnot : ¬ x < y := fun hlt => h1 ((strLess_iff x y).mpr hlt)
        have hyx : y < x := lt_of_le_of_ne (not_lt.mp hnot) (Ne.symm h2)
        refine List.sorted_cons.mpr ⟨?_, ih hys⟩
        intro b hb
        rcases (mem_insertKey x b ys).mp hb with rfl | hb
        · exact hyx
        · exact hy b hb

theorem insertKey_of_mem (x : String) (l : List String) (h : l.Sorted (· < ·))
    (hx : x ∈ l) : insertKey x l = l := by
  induction l with
  | nil => simp at hx
  | cons y ys ih =>
    have hy : ∀ b ∈ ys, y < b := (List.sorted_cons.mp h).1
    have hys : ys.Sorted (· < ·) := (List.sorted_cons.mp h).2
    unfold insertKey
    by_cases h2 : x = y
    · subst h2
      have h1 : ¬ strLess x x = true := fun hlt => lt_irrefl x ((strLess_iff x x).mp hlt)
      simp [h1]
    · have hxys : x ∈ ys := by
        rcases List.mem_cons.mp hx with hxy | hxy
        · exact absurd hxy h2
        · exact hxy
      have h1 : ¬ strLess x y = true := fun hlt =>
        lt_asymm ((strLess_iff x y).mp hlt) (hy x hxys)
      rw [if_neg h1, if_neg h2, ih hys hxys]

theorem insertKey_of_lt (x : String) (l : List String) (h : ∀ b ∈ l, x < b) :
    insertKey x l = x :: l := by
  cases l with
  | nil => rfl
  | cons y ys =>
    unfold insertKey
    rw [if_pos ((strLess_iff x y).mpr (h y (List.mem_cons_self y ys)))]

theorem sorted_NewString (items : Option (List String)) :
    (sets.NewString items).Sorted (· < ·) := by
  unfold sets.NewString
  induction sliceElems items with
  | nil => simp
  | cons y ys ih => exact sorted_insertKey y _ ih

theorem mem_NewString (items : Option (List String)) (z : String) :
    z ∈ sets.NewString items ↔ z ∈ sliceElems items := by
  unfold sets.NewString
  induction sliceElems items with
  | nil => simp
  | cons y ys ih => simp [mem_insertKey, ih]

theorem NewString_of_sorted (l : List String) (h : l.Sorted (· < ·)) :
    sets.NewString (some l) = l := by
  unfold sets.NewString sliceElems
  induction l with
  | nil => rfl
  | cons y ys ih =>
    have hy : ∀ b ∈ ys, y < b := (List.sorted_cons.mp h).1
    have hys : ys.Sorted (· < ·) := (List.sorted_cons.mp h).2
    rw [List.foldr_cons, ih hys]
    exact insertKey_of_lt y ys hy

theorem sorted_Delete (l : List String) (x : String) (h : l.Sorted (· < ·)) :
    (sets.Delete l x).Sorted (· < ·) :=
  List.Sorted.filter _ h

theorem mem_Delete (l : List String) (x z : String) :
    z ∈ sets.Delete l x ↔ z ∈ l ∧ z ≠ x := by
  unfold sets.Delete
  simp

/-- The finalizers `addFinalizer` leaves: a slice that is not nil, strictly
increasing, holding the former finalizers and the token of the controller. -/
theorem addFinalizer_spec (csr : GCSSource) :
    (addFinalizer csr).Spec = csr.Spec ∧ (addFinalizer csr).Status = csr.Status ∧
    ∃ l, (addFinalizer csr).meta = { csr.meta with Finalizers := some l } ∧
      l.Sorted (· < ·) ∧
      ∀ z, z ∈ l ↔ z ∈ sliceElems csr.meta.Finalizers ∨ z = "gcs-controller" := by
  refine ⟨rfl, rfl, _, rfl, sorted_insertKey _ _ (sorted_NewString _), ?_⟩
  intro z
  unfold sets.Insert
  rw [mem_insertKey, mem_NewString]
  unfold finalizerName controllerAgentName
  tauto

/-- The finalizers `removeFinalizer` leaves: a slice that is not nil, strictly
increasing, holding the former finalizers but the token of the controller. -/
theorem removeFinalizer_spec (csr : GCSSource) :
    (removeFinalizer csr).Spec = csr.Spec ∧ (removeFinalizer csr).Status = csr.Status ∧
    ∃ l, (removeFinalizer csr).meta = { csr.meta with Finalizers := some l } ∧
      l.Sorted (· < ·) ∧
      ∀ z, z ∈ l ↔ z ∈ sliceElems csr.meta.Finalizers ∧ z ≠ "gcs-controller" := by
  refine ⟨rfl, rfl, _, rfl, sorted_Delete _ _ (sorted_NewString _), ?_⟩
  intro z
  rw [mem_Delete, mem_NewString]
  unfold finalizerName controllerAgentName
  tauto

/-- A generated topic ID is not the empty string. -/
theorem gcs_prefix_ne_empty (u : String) : "gcs-" ++ u ≠ "" := by
  intro h
  have h2 : ("gcs-" ++ u).data = "".data := by rw [h]
  rw [String.data_append] at h2
  simp at h2

/-! ## The topic step -/

/-- The resource `reconcileTopic` leaves, whatever it returns: the topic ID
is the former one, or `gcs-` and a fresh UUID when there was none. -/
theorem reconcileTopic_resource {σ : Type} (c : Cloud σ) (csr : GCSSource) (s : St σ) :
    (reconcileTopic c csr s).2.1 =
      if csr.Status.Topic = "" then
        { csr with Status := { csr.Status with Topic := "gcs-" ++ (c.uuidNew s.world).1 } }
      else csr := by
  unfold reconcileTopic
  dsimp only
  split
  · rfl
  · split
    · rfl
    · rfl
    · split <;> rfl

/-! ## C1 -/

/-- C1: for a resource with `deletionTimestamp` unset, when the sink resolves
to `u` and the topic, relay and notification steps succeed,
`reconcileGCSSource` returns no error and leaves `status.sinkURI = u`, a
`status.topic` that is not empty (the former one if it was not empty, else
`gcs-` and the generated UUID), `status.notificationID` the ID of the
notification the notification step returned, and as finalizers the strictly
increasing list of the former finalizers and `gcs-controller`; the spec and
the rest of the metadata are untouched. -/
theorem reconcileGCSSource_active_success {σ : Type} (c : Cloud σ) (csr csr1 : GCSSource)
    (s s1 s2 s3 s4 : St σ) (u : String) (p : GcpPubSubSource) (n : Notification)
    (hactive : csr.meta.DeletionTimestamp = none)
    (hsink : s.call (.GetSinkURI csr.Spec.Sink csr.meta.Namespace)
      (fun w => c.GetSinkURI w csr.Spec.Sink csr.meta.Namespace) = (.ok u, s1))
    (htopic : reconcileTopic c csr s1 = (none, csr1, s2))
    (hrelay : reconcilePubSub c
      { addFinalizer csr1 with Status := { (addFinalizer csr1).Status with SinkURI := u } } s2
        = (.ok p, s3))
    (hnotif : reconcileNotification c
      { addFinalizer csr1 with Status := { (addFinalizer csr1).Status with SinkURI := u } } s3
        = (.ok n, s4)) :
    ∃ out : GCSSource, reconcileGCSSource c csr s = (none, out, s4) ∧
      out.Status.SinkURI = u ∧
      out.Status.Topic ≠ "" ∧
      out.Status.Topic =
        (if csr.Status.Topic = "" then "gcs-" ++ (c.uuidNew s1.world).1 else csr.Status.Topic) ∧
      out.Status.NotificationID = n.ID ∧
      out.Spec = csr.Spec ∧
      (∃ l : List String, out.meta = { csr.meta with Finalizers := some l } ∧
        l.Sorted (· < ·) ∧
        ∀ z, z ∈ l ↔ z ∈ sliceElems csr.meta.Finalizers ∨ z = "gcs-controller") ∧
      (sliceElems csr.meta.Finalizers = [] → out.meta.Finalizers = some ["gcs-controller"]) := by
  have hcsr1 := reconcileTopic_resource c csr s1
  rw [htopic] at hcsr1
  simp only at hcsr1
  have hrun : reconcileGCSSource c csr s =
      (none, { addFinalizer csr1 with
        Status := { (addFinalizer csr1).Status with SinkURI := u, NotificationID := n.ID } }, s4) := by
    unfold reconcileGCSSource
    simp only [hsink, hactive, htopic, hrelay, hnotif]
    simp
  refine ⟨_, hrun, rfl, ?_, ?_, rfl, ?_, ?_, ?_⟩
  · show csr1.Status.Topic ≠ ""
    rw [hcsr1]
    split
    · exact gcs_prefix_ne_empty _
    · assumption
  · show csr1.Status.Topic = _
    rw [hcsr1]
    split <;> rfl
  · show csr1.Spec = csr.Spec
    rw [hcsr1]
    split <;> rfl
  · obtain ⟨_, _, l, hl, hsorted, hmem⟩ := addFinalizer_spec csr1
    have hmeta : csr1.meta = csr.meta := by
      rw [hcsr1]
      split <;> rfl
    refine ⟨l, ?_, hsorted, ?_⟩
    · show (addFinalizer csr1).meta = _
      rw [hl, hmeta]
    · intro z
      rw [hmeta] at hmem
      exact hmem z
  · intro hnil
    have hmeta : csr1.meta = csr.meta := by
      rw [hcsr1]
      split <;> rfl
    show some (sets.Insert (sets.NewString csr1.meta.Finalizers) finalizerName) = _
    unfold sets.NewString
    rw [hmeta, hnil]
    rfl

theorem reconcileGCSSource_active_success_witness :
    sampleNew.meta.DeletionTimestamp = none ∧
    ∃ (out : GCSSource) (s4 : St World),
      reconcileGCSSource modelCloud sampleNew (St.init sampleWorld) = (none, out, s4) ∧
      out.Status.SinkURI = "https://sink.example" ∧
      out.Status.Topic = "gcs-u0" ∧
      out.Status.NotificationID = "n" ∧
      out.meta.Finalizers = some ["gcs-controller"] := by
  obtain ⟨out, hrun, h1, -, h3, h4, -, -, h7⟩ :=
    reconcileGCSSource_active_success modelCloud sampleNew _ (St.init sampleWorld) _ _ _ _
      "https://sink.example" _ _ rfl rfl rfl rfl rfl
  exact ⟨rfl, out, _, hrun, h1, h3, h4, h7 rfl⟩

/-! ## C2 -/

/-- C2: for a resource with `deletionTimestamp` set, whatever the sink
resolution gives, when the notification delete and the topic delete both
return no error, `reconcileGCSSource` returns no error and leaves
`status.topic` empty, `status.notificationID` and `status.sinkURI` as they
were, and as finalizers the strictly increasing list of the former finalizers
without `gcs-controller` (so `["gcs-controller"]` becomes the empty list). -/
theorem reconcileGCSSource_terminating_success {σ : Type} (c : Cloud σ) (csr : GCSSource)
    (s s2 s3 : St σ)
    (hdel : csr.meta.DeletionTimestamp ≠ none)
    (hnotif : deleteNotification c csr
      (s.call (.GetSinkURI csr.Spec.Sink csr.meta.Namespace)
        (fun w => c.GetSinkURI w csr.Spec.Sink csr.meta.Namespace)).2 = (none, s2))
    (htopic : deleteTopic c csr.Spec.GoogleCloudProject csr.Status.Topic s2 = (none, s3)) :
    ∃ out : GCSSource, reconcileGCSSource c csr s = (none, out, s3) ∧
      out.Status.Topic = "" ∧
      out.Status.NotificationID = csr.Status.NotificationID ∧
      out.Status.SinkURI = csr.Status.SinkURI ∧
      out.Spec = csr.Spec ∧
      (∃ l : List String, out.meta = { csr.meta with Finalizers := some l } ∧
        l.Sorted (· < ·) ∧
        ∀ z, z ∈ l ↔ z ∈ sliceElems csr.meta.Finalizers ∧ z ≠ "gcs-controller") ∧
      (csr.meta.Finalizers = some ["gcs-controller"] → out.meta.Finalizers = some []) := by
  have hrun : reconcileGCSSource c csr s =
      (none, removeFinalizer { csr with Status := { csr.Status with Topic := "" } }, s3) := by
    obtain ⟨t, ht⟩ : ∃ t, csr.meta.DeletionTimestamp = some t :=
      (Option.ne_none_iff_exists.mp hdel).imp (fun _ h => h.symm)
    unfold reconcileGCSSource
    simp only [ht]
    split
    · rename_i heq
      simp at heq
    · simp [hnotif, htopic]
  refine ⟨_, hrun, rfl, rfl, rfl, rfl, ?_, ?_⟩
  · obtain ⟨_, _, l, hl, hsorted, hmem⟩ :=
      removeFinalizer_spec { csr with Status := { csr.Status with Topic := "" } }
    exact ⟨l, hl, hsorted, hmem⟩
  · intro hfin
    show some (sets.Delete (sets.NewString csr.meta.Finalizers) finalizerName) = _
    rw [hfin]
    decide

theorem reconcileGCSSource_terminating_success_witness :
    sampleTerminating.meta.DeletionTimestamp ≠ none ∧
    ∃ (out : GCSSource) (s3 : St World),
      reconcileGCSSource modelCloud sampleTerminating (St.init sampleWorldCleanup)
        = (none, out, s3) ∧
      out.Status.Topic = "" ∧
      out.Status.NotificationID = "n1" ∧
      out.meta.Finalizers = some [] := by
  obtain ⟨out, hrun, h1, h2, -, -, -, h6⟩ :=
    reconcileGCSSource_terminating_success modelCloud sampleTerminating
      (St.init sampleWorldCleanup) _ _ (by decide) rfl rfl
  exact ⟨by decide, out, _, hrun, h1, h2, h6 rfl⟩

/-! ## C3 -/

/-- C3: for a resource with `deletionTimestamp` unset, when the sink
resolution fails with `e`, `reconcileGCSSource` returns `e`, leaves the
resource as it was, and has made the one call that resolves the sink and no
call to the topic, relay or notification services. -/
theorem reconcileGCSSource_active_sink_failure {σ : Type} (c : Cloud σ) (csr : GCSSource)
    (s s1 : St σ) (e : GoError)
    (hactive : csr.meta.DeletionTimestamp = none)
    (hsink : s.call (.GetSinkURI csr.Spec.Sink csr.meta.Namespace)
      (fun w => c.GetSinkURI w csr.Spec.Sink csr.meta.Namespace) = (.error e, s1)) :
    reconcileGCSSource c csr s = (some e, csr, s1) ∧
      s1.log = s.log ++ [Call.GetSinkURI csr.Spec.Sink csr.meta.Namespace] ∧
      (Call.GetSinkURI csr.Spec.Sink csr.meta.Namespace).isExternalOp = false := by
  refine ⟨?_, ?_, rfl⟩
  · unfold reconcileGCSSource
    simp only [hsink, hactive]
  · have h2 := congrArg (fun r => r.2.log) hsink
    exact h2.symm

theorem reconcileGCSSource_active_sink_failure_witness :
    sampleNew.meta.DeletionTimestamp = none ∧
    reconcileGCSSource modelCloud sampleNew (St.init sampleWorldCleanup) =
      (some (.api StatusReasonNotFound "sink not found"), sampleNew,
        ⟨sampleWorldCleanup, [Call.GetSinkURI (some sampleSink) "ns"]⟩) :=
  ⟨rfl, (reconcileGCSSource_active_sink_failure modelCloud sampleNew (St.init sampleWorldCleanup)
    ⟨sampleWorldCleanup, [Call.GetSinkURI (some sampleSink) "ns"]⟩
    (.api StatusReasonNotFound "sink not found") rfl rfl).1⟩

/-! ## The delete steps -/

theorem isGrpcNotFound_iff (e : GoError) :
    e.isGrpcNotFound = true ↔ ∃ msg, e = .grpc codes.NotFound msg := by
  cases e with
  | grpc code msg =>
    simp only [GoError.isGrpcNotFound, decide_eq_true_iff]
    constructor
    · intro h
      exact ⟨msg, by rw [h]⟩
    · rintro ⟨m, hm⟩
      injection hm
  | api reason msg => simp [GoError.isGrpcNotFound]
  | http status msg => simp [GoError.isGrpcNotFound]
  | plain msg => simp [GoError.isGrpcNotFound]

/-- What the delete steps make of a failed remote delete: a gRPC status
`NotFound` gives no error, any other error is kept. -/
theorem tolerate_eq (err : GoError) :
    (if (!(gstatus.FromError err).2) = true then some err
      else if (gstatus.FromError err).1 ≠ codes.NotFound then some err
      else none) = (some err).filter (fun e => !e.isGrpcNotFound) := by
  cases err with
  | grpc code msg =>
    by_cases h : code = codes.NotFound <;>
      simp [gstatus.FromError, GoError.isGrpcNotFound, Option.filter, h]
  | api reason msg => simp [gstatus.FromError, GoError.isGrpcNotFound, Option.filter]
  | http status msg => simp [gstatus.FromError, GoError.isGrpcNotFound, Option.filter]
  | plain msg => simp [gstatus.FromError, GoError.isGrpcNotFound, Option.filter]

theorem deleteTopic_eq {σ : Type} (c : Cloud σ) (project topic : String) (s s1 s2 : St σ)
    (r : Option GoError)
    (hclient : s.call (.pubsubNewClient project) (fun w => c.pubsubNewClient w project)
      = (none, s1))
    (hdelete : s1.call (.topicDelete project topic) (fun w => c.topicDelete w project topic)
      = (r, s2)) :
    deleteTopic c project topic s = (r.filter (fun e => !e.isGrpcNotFound), s2) := by
  unfold deleteTopic
  simp only [hclient, hdelete]
  rcases r with _ | e
  · rfl
  · dsimp only
    rw [← tolerate_eq]
    split
    · rfl
    · split <;> rfl

theorem deleteNotification_eq {σ : Type} (c : Cloud σ) (gcs : GCSSource) (s s1 s2 : St σ)
    (r : Option GoError)
    (hclient : s.call .storageNewClient c.storageNewClient = (none, s1))
    (hdelete : s1.call (.DeleteNotification gcs.Spec.Bucket gcs.Status.NotificationID)
      (fun w => c.DeleteNotification w gcs.Spec.Bucket gcs.Status.NotificationID) = (r, s2)) :
    deleteNotification c gcs s = (r.filter (fun e => !e.isGrpcNotFound), s2) := by
  unfold deleteNotification
  simp only [hclient, hdelete]
  rcases r with _ | e
  · rfl
  · dsimp only
    rw [← tolerate_eq]
    split
    · rfl
    · split <;> rfl

/-- The calls `deleteNotification` makes: the construction of the storage
client, and after it at most the delete of the notification. -/
theorem deleteNotification_log {σ : Type} (c : Cloud σ) (gcs : GCSSource) (s : St σ) :
    (deleteNotification c gcs s).2.log = s.log ++ [Call.storageNewClient] ∨
    (deleteNotification c gcs s).2.log = s.log ++ [Call.storageNewClient,
      Call.DeleteNotification gcs.Spec.Bucket gcs.Status.NotificationID] := by
  unfold deleteNotification
  split
  · rename_i err s1 heq
    left
    have h := congrArg (fun r => r.2.log) heq
    exact h.symm
  · rename_i s1 heq
    have h1 : s1.log = s.log ++ [Call.storageNewClient] :=
      (congrArg (fun r => r.2.log) heq).symm
    right
    split
    · rename_i s2 heq2
      have h2 := (congrArg (fun r => r.2.log) heq2).symm
      simp only [St.call] at h2
      simp [h2, h1]
    · rename_i err s2 heq2
      have h2 := (congrArg (fun r => r.2.log) heq2).symm
      simp only [St.call] at h2
      split
      · simp [h2, h1]
      · split <;> simp [h2, h1]

/-! ## What the delete steps tolerate -/

/-- Once the client is constructed, `deleteTopic` and `deleteNotification`
return no error when the remote delete returns no error, no error when it
fails with a gRPC status of code `NotFound`, and for every other error `e` of
the remote delete, an error without a gRPC status included, they return `e`
itself. -/
theorem delete_tolerates_not_found {σ : Type} (c : Cloud σ) (project topic : String)
    (gcs : GCSSource) (s s1 s2 t t1 t2 : St σ) (r q : Option GoError)
    (hpubsub : s.call (.pubsubNewClient project) (fun w => c.pubsubNewClient w project)
      = (none, s1))
    (htopic : s1.call (.topicDelete project topic) (fun w => c.topicDelete w project topic)
      = (r, s2))
    (hstorage : t.call .storageNewClient c.storageNewClient = (none, t1))
    (hnotif : t1.call (.DeleteNotification gcs.Spec.Bucket gcs.Status.NotificationID)
      (fun w => c.DeleteNotification w gcs.Spec.Bucket gcs.Status.NotificationID) = (q, t2)) :
    ((r = none → deleteTopic c project topic s = (none, s2)) ∧
      (∀ msg, r = some (.grpc codes.NotFound msg) → deleteTopic c project topic s = (none, s2)) ∧
      (∀ e, r = some e → (∀ msg, e ≠ .grpc codes.NotFound msg) →
        deleteTopic c project topic s = (some e, s2))) ∧
    ((q = none → deleteNotification c gcs t = (none, t2)) ∧
      (∀ msg, q = some (.grpc codes.NotFound msg) → deleteNotification c gcs t = (none, t2)) ∧
      (∀ e, q = some e → (∀ msg, e ≠ .grpc codes.NotFound msg) →
        deleteNotification c gcs t = (some e, t2))) := by
  have key : ∀ e : GoError, (∀ msg, e ≠ .grpc codes.NotFound msg) →
      (some e).filter (fun e => !e.isGrpcNotFound) = some e := by
    intro e hne
    have h : e.isGrpcNotFound = false := by
      cases hb : e.isGrpcNotFound with
      | false => rfl
      | true =>
        obtain ⟨msg, hm⟩ := (isGrpcNotFound_iff e).mp hb
        exact absurd hm (hne msg)
    simp [Option.filter, h]
  rw [deleteTopic_eq c project topic s s1 s2 r hpubsub htopic,
    deleteNotification_eq c gcs t t1 t2 q hstorage hnotif]
  refine ⟨⟨?_, ?_, ?_⟩, ?_, ?_, ?_⟩
  · intro h
    rw [h]
    rfl
  · intro msg h
    rw [h]
    rfl
  · intro e h hne
    rw [h, key e hne]
  · intro h
    rw [h]
    rfl
  · intro msg h
    rw [h]
    rfl
  · intro e h hne
    rw [h, key e hne]

/-- An error of the remote delete that carries no gRPC status is returned by
`deleteNotification` as it is, whatever it says. -/
theorem deleteNotification_returns_non_grpc {σ : Type} (c : Cloud σ) (gcs : GCSSource)
    (s s1 s2 : St σ) (e : GoError)
    (hclient : s.call .storageNewClient c.storageNewClient = (none, s1))
    (hdelete : s1.call (.DeleteNotification gcs.Spec.Bucket gcs.Status.NotificationID)
      (fun w => c.DeleteNotification w gcs.Spec.Bucket gcs.Status.NotificationID)
        = (some e, s2))
    (hstatus : (gstatus.FromError e).2 = false) :
    deleteNotification c gcs s = (some e, s2) := by
  rw [deleteNotification_eq c gcs s s1 s2 (some e) hclient hdelete]
  have h : e.isGrpcNotFound = false := by
    cases e with
    | grpc code msg => simp [gstatus.FromError] at hstatus
    | api reason msg => rfl
    | http status msg => rfl
    | plain msg => rfl
  simp [Option.filter, h]

/-! ## C4 -/

/-- C4, on the code: `deleteTopic` does what the claim says, `deleteNotification`
does not.  In `sampleWorldAbsent` neither the topic `t1` nor the notification
`n1` of `sampleTerminating` exists.  Pub/Sub answers the delete of the topic
with the gRPC status `NotFound`, and `deleteTopic` returns no error.  Cloud
Storage answers the delete of the notification with a `*googleapi.Error` of
HTTP status 404, which carries no gRPC status; `deleteNotification` tests for
a gRPC status `NotFound`, so it returns that error, and the pass returns it
and leaves the resource, finalizer included, as it was. -/
theorem deleteNotification_absent_returns_error :
    sampleTerminating.Status.NotificationID = "n1" ∧
    (sampleWorldAbsent.listing "b1").lookup "n1" = none ∧
    ("p1", "t1") ∉ sampleWorldAbsent.topics ∧
    deleteTopic modelCloud "p1" "t1" (St.init sampleWorldAbsent) =
      (none, ⟨sampleWorldAbsent, [Call.pubsubNewClient "p1", Call.topicDelete "p1" "t1"]⟩) ∧
    (modelCloud.DeleteNotification sampleWorldAbsent "b1" "n1").1 =
      some (.http 404 "googleapi: Error 404: Not Found, notFound") ∧
    gstatus.FromError (.http 404 "googleapi: Error 404: Not Found, notFound") = (2, false) ∧
    deleteNotification modelCloud sampleTerminating (St.init sampleWorldAbsent) =
      (some (.http 404 "googleapi: Error 404: Not Found, notFound"),
        ⟨sampleWorldAbsent, [Call.storageNewClient, Call.DeleteNotification "b1" "n1"]⟩) ∧
    reconcileGCSSource modelCloud sampleTerminating (St.init sampleWorldAbsent) =
      (some (.http 404 "googleapi: Error 404: Not Found, notFound"), sampleTerminating,
        ⟨sampleWorldAbsent, [Call.GetSinkURI (some sampleSink) "ns", Call.storageNewClient,
          Call.DeleteNotification "b1" "n1"]⟩) ∧
    sampleTerminating.meta.Finalizers = some ["gcs-controller"] := by
  refine ⟨rfl, rfl, by decide, rfl, rfl, rfl, rfl, rfl, rfl⟩

/-! ## C5 -/

/-- C5: for a resource with `deletionTimestamp` set, when the notification
delete returns an error `e`, `reconcileGCSSource` returns `e`, leaves the
resource as it was and has made no call for the topic (the calls after the
sink resolution are those of the notification delete alone); when the
notification delete returns no error and the topic delete returns `e`,
`reconcileGCSSource` returns `e` and leaves the resource as it was. -/
theorem reconcileGCSSource_terminating_failure {σ : Type} (c : Cloud σ) (csr : GCSSource)
    (s : St σ) (e : GoError)
    (hdel : csr.meta.DeletionTimestamp ≠ none) :
    (∀ s2, deleteNotification c csr
        (s.call (.GetSinkURI csr.Spec.Sink csr.meta.Namespace)
          (fun w => c.GetSinkURI w csr.Spec.Sink csr.meta.Namespace)).2 = (some e, s2) →
      reconcileGCSSource c csr s = (some e, csr, s2) ∧
      ∃ extra, s2.log = s.log ++ Call.GetSinkURI csr.Spec.Sink csr.meta.Namespace :: extra ∧
        ∀ k ∈ extra, k = Call.storageNewClient ∨
          k = Call.DeleteNotification csr.Spec.Bucket csr.Status.NotificationID) ∧
    (∀ s2 s3, deleteNotification c csr
        (s.call (.GetSinkURI csr.Spec.Sink csr.meta.Namespace)
          (fun w => c.GetSinkURI w csr.Spec.Sink csr.meta.Namespace)).2 = (none, s2) →
      deleteTopic c csr.Spec.GoogleCloudProject csr.Status.Topic s2 = (some e, s3) →
      reconcileGCSSource c csr s = (some e, csr, s3)) := by
  obtain ⟨t, ht⟩ : ∃ t, csr.meta.DeletionTimestamp = some t :=
      (Option.ne_none_iff_exists.mp hdel).imp (fun _ h => h.symm)
  constructor
  · intro s2 hnotif
    constructor
    · unfold reconcileGCSSource
      simp only [ht]
      split
      · rename_i heq
        simp at heq
      · simp [hnotif]
    · have hlog := deleteNotification_log c csr
        (s.call (.GetSinkURI csr.Spec.Sink csr.meta.Namespace)
          (fun w => c.GetSinkURI w csr.Spec.Sink csr.meta.Namespace)).2
      rw [hnotif] at hlog
      simp only [St.call] at hlog
      rcases hlog with hlog | hlog
      · refine ⟨[Call.storageNewClient], ?_, ?_⟩
        · rw [hlog]
          simp
        · intro k hk
          left
          simpa using hk
      · refine ⟨[Call.storageNewClient,
          Call.DeleteNotification csr.Spec.Bucket csr.Status.NotificationID], ?_, ?_⟩
        · rw [hlog]
          simp
        · intro k hk
          simpa using hk
  · intro s2 s3 hnotif htopic
    unfold reconcileGCSSource
    simp only [ht]
    split
    · rename_i heq
      simp at heq
    · simp [hnotif, htopic]

theorem reconcileGCSSource_terminating_failure_witness :
    sampleTerminating.meta.DeletionTimestamp ≠ none ∧
    reconcileGCSSource modelCloud sampleTerminating (St.init sampleWorldNotifDown) =
      (some sampleUnavailable, sampleTerminating,
        ⟨sampleWorldNotifDown, [Call.GetSinkURI (some sampleSink) "ns", Call.storageNewClient,
          Call.DeleteNotification "b1" "n1"]⟩) ∧
    reconcileGCSSource modelCloud sampleTerminating (St.init sampleWorldTopicDown) =
      (some sampleUnavailable, sampleTerminating,
        ⟨{ sampleWorldTopicDown with notifications := [] },
          [Call.GetSinkURI (some sampleSink) "ns", Call.storageNewClient,
            Call.DeleteNotification "b1" "n1", Call.pubsubNewClient "p1",
            Call.topicDelete "p1" "t1"]⟩) :=
  ⟨by decide,
    ((reconcileGCSSource_terminating_failure modelCloud sampleTerminating
      (St.init sampleWorldNotifDown) sampleUnavailable (by decide)).1 _ rfl).1,
    (reconcileGCSSource_terminating_failure modelCloud sampleTerminating
      (St.init sampleWorldTopicDown) sampleUnavailable (by decide)).2 _ _ rfl rfl⟩

/-! ## C6 -/

/-- C6, as the claim states it, fails: `sampleTerminatingEmpty` is being
deleted and its `status.topic` and `status.notificationID` are empty.  The
pass issues the remote delete of the notification with the empty ID; Cloud
Storage answers that nothing is there, the notification delete step returns
that error, and the pass returns it with the resource as it was.
`deleteTopic` issues the remote delete of the topic with the empty ID; and
when the remote answers it with an error other than `NotFound`, the topic
delete step returns that error. -/
theorem delete_with_empty_id_counterexample :
    sampleTerminatingEmpty.meta.DeletionTimestamp ≠ none ∧
    sampleTerminatingEmpty.Status.Topic = "" ∧
    sampleTerminatingEmpty.Status.NotificationID = "" ∧
    reconcileGCSSource modelCloud sampleTerminatingEmpty (St.init sampleWorldCleanup) =
      (some storageNotFound, sampleTerminatingEmpty,
        ⟨sampleWorldCleanup, [Call.GetSinkURI (some sampleSink) "ns", Call.storageNewClient,
          Call.DeleteNotification "b1" ""]⟩) ∧
    deleteTopic modelCloud sampleTerminatingEmpty.Spec.GoogleCloudProject
        sampleTerminatingEmpty.Status.Topic (St.init sampleWorldCleanup) =
      (none, ⟨sampleWorldCleanup, [Call.pubsubNewClient "p1", Call.topicDelete "p1" ""]⟩) ∧
    deleteTopic modelCloud sampleTerminatingEmpty.Spec.GoogleCloudProject
        sampleTerminatingEmpty.Status.Topic (St.init sampleWorldTopicDown) =
      (some sampleUnavailable,
        ⟨sampleWorldTopicDown, [Call.pubsubNewClient "p1", Call.topicDelete "p1" ""]⟩) := by
  refine ⟨by decide, rfl, rfl, rfl, rfl, rfl⟩

/-- C6, amended: the delete steps have no guard on the persisted ID.  Once
the client is constructed, for a resource whose `status.topic` is empty
`deleteTopic` issues the remote delete with the empty ID, and for a resource
whose `status.notificationID` is empty `deleteNotification` issues the remote
delete with the empty ID; either step returns what the remote delete returned,
but no error when that was a gRPC status `NotFound`. -/
theorem delete_issues_request_for_empty_id {σ : Type} (c : Cloud σ) (csr : GCSSource)
    (s s1 t t1 : St σ)
    (hpubsub : s.call (.pubsubNewClient csr.Spec.GoogleCloudProject)
      (fun w => c.pubsubNewClient w csr.Spec.GoogleCloudProject) = (none, s1))
    (hstorage : t.call .storageNewClient c.storageNewClient = (none, t1)) :
    (csr.Status.Topic = "" →
      (deleteTopic c csr.Spec.GoogleCloudProject csr.Status.Topic s).2.log =
        s.log ++ [Call.pubsubNewClient csr.Spec.GoogleCloudProject,
          Call.topicDelete csr.Spec.GoogleCloudProject ""] ∧
      (deleteTopic c csr.Spec.GoogleCloudProject csr.Status.Topic s).1 =
        (c.topicDelete s1.world csr.Spec.GoogleCloudProject "").1.filter
          (fun e => !e.isGrpcNotFound)) ∧
    (csr.Status.NotificationID = "" →
      (deleteNotification c csr t).2.log =
        t.log ++ [Call.storageNewClient, Call.DeleteNotification csr.Spec.Bucket ""] ∧
      (deleteNotification c csr t).1 =
        (c.DeleteNotification t1.world csr.Spec.Bucket "").1.filter
          (fun e => !e.isGrpcNotFound)) := by
  have hs1 : s1.log = s.log ++ [Call.pubsubNewClient csr.Spec.GoogleCloudProject] :=
    (congrArg (fun r => r.2.log) hpubsub).symm
  have ht1 : t1.log = t.log ++ [Call.storageNewClient] :=
    (congrArg (fun r => r.2.log) hstorage).symm
  constructor
  · intro hempty
    rw [deleteTopic_eq c csr.Spec.GoogleCloudProject csr.Status.Topic s s1 _ _ hpubsub rfl]
    rw [hempty]
    simp [St.call, hs1]
  · intro hempty
    rw [deleteNotification_eq c csr t t1 _ _ hstorage rfl]
    rw [hempty]
    simp [St.call, ht1]

theorem delete_issues_request_for_empty_id_witness :
    (deleteTopic modelCloud "p1" "" (St.init sampleWorldTopicDown)).2.log =
      [Call.pubsubNewClient "p1", Call.topicDelete "p1" ""] ∧
    (deleteTopic modelCloud "p1" "" (St.init sampleWorldTopicDown)).1 = some sampleUnavailable ∧
    (deleteNotification modelCloud sampleTerminatingEmpty (St.init sampleWorldTopicDown)).2.log =
      [Call.storageNewClient, Call.DeleteNotification "b1" ""] ∧
    (deleteNotification modelCloud sampleTerminatingEmpty (St.init sampleWorldTopicDown)).1 =
      some storageNotFound :=
  have h := delete_issues_request_for_empty_id modelCloud sampleTerminatingEmpty
    (St.init sampleWorldTopicDown) ⟨sampleWorldTopicDown, [Call.pubsubNewClient "p1"]⟩
    (St.init sampleWorldTopicDown) ⟨sampleWorldTopicDown, [Call.storageNewClient]⟩ rfl rfl
  ⟨(h.1 rfl).1, (h.1 rfl).2, (h.2 rfl).1, (h.2 rfl).2⟩

/-! ## C7 -/

/-- C7, as the claim states it, fails: for the new resource `ns/src`
(`deletionTimestamp` unset, `status.topic` empty) in a world where the check
of the topic's existence fails, `Reconcile` returns that error, has issued no
create request for a topic, and has written the resource back with
`status.topic = "gcs-u0"`. -/
theorem Reconcile_writes_unconfirmed_topic_counterexample :
    sampleNew.meta.DeletionTimestamp = none ∧
    sampleNew.Status.Topic = "" ∧
    (Reconcile modelCloud "ns/src" (St.init sampleWorldExistsDown)).1 = some sampleUnavailable ∧
    (Reconcile modelCloud "ns/src" (St.init sampleWorldExistsDown)).2.log =
      [Call.listerGet "ns" "src", Call.GetSinkURI (some sampleSink) "ns", Call.uuidNew,
        Call.pubsubNewClient "p1", Call.topicExists "p1" "gcs-u0", Call.listerGet "ns" "src",
        Call.clientUpdate "ns" sampleNewWithTopic] ∧
    (Reconcile modelCloud "ns/src" (St.init sampleWorldExistsDown)).2.world.store =
      [sampleNewWithTopic] ∧
    sampleNewWithTopic.Status.Topic = "gcs-u0" := by
  refine ⟨rfl, rfl, rfl, rfl, rfl, rfl⟩

/-- The pass on a resource with `deletionTimestamp` unset whose sink resolves
and whose topic step fails: the error of the topic step and the resource the
topic step left. -/
theorem reconcileGCSSource_topic_failure {σ : Type} (c : Cloud σ) (csr csr1 : GCSSource)
    (s s1 s2 : St σ) (u : String) (e : GoError)
    (hactive : csr.meta.DeletionTimestamp = none)
    (hsink : s.call (.GetSinkURI csr.Spec.Sink csr.meta.Namespace)
      (fun w => c.GetSinkURI w csr.Spec.Sink csr.meta.Namespace) = (.ok u, s1))
    (htopic : reconcileTopic c csr s1 = (some e, csr1, s2)) :
    reconcileGCSSource c csr s = (some e, csr1, s2) := by
  unfold reconcileGCSSource
  simp only [hsink, hactive, htopic]
  simp

/-- C7, amended: the topic ID is stored in the status before the topic is
looked up or created.  In a pass of `Reconcile` on a resource with
`deletionTimestamp` unset and `status.topic` empty, whose sink resolves and
whose topic step fails with `e` (the client construction, the existence check
or the create call failed), the resource handed to the API server for the
write carries the generated ID `gcs-<uuid>` in `status.topic`, which is not
empty, and is otherwise the original, `status.notificationID` included;
`Reconcile` returns `e` when the write succeeds and the error of the write
when it fails. -/
theorem Reconcile_persists_generated_topic {σ : Type} (c : Cloud σ) (key ns name : String)
    (original csr1 : GCSSource) (s s1 s2 s3 s4 s5 : St σ) (u : String) (e : GoError)
    (r : Except GoError GCSSource)
    (hkey : SplitMetaNamespaceKey key = .ok (ns, name))
    (hget : s.call (.listerGet ns name) (fun w => c.listerGet w ns name) = (.ok original, s1))
    (hactive : original.meta.DeletionTimestamp = none)
    (hempty : original.Status.Topic = "")
    (hsink : s1.call (.GetSinkURI original.Spec.Sink original.meta.Namespace)
      (fun w => c.GetSinkURI w original.Spec.Sink original.meta.Namespace) = (.ok u, s2))
    (htopic : reconcileTopic c original s2 = (some e, csr1, s3))
    (hget2 : s3.call (.listerGet original.meta.Namespace original.meta.Name)
      (fun w => c.listerGet w original.meta.Namespace original.meta.Name) = (.ok original, s4))
    (hwrite : s4.call (.clientUpdate original.meta.Namespace
        { original with
          Status := { original.Status with Topic := "gcs-" ++ (c.uuidNew s2.world).1 } })
      (fun w => c.clientUpdate w original.meta.Namespace
        { original with
          Status := { original.Status with Topic := "gcs-" ++ (c.uuidNew s2.world).1 } })
      = (r, s5)) :
    csr1 = { original with
      Status := { original.Status with Topic := "gcs-" ++ (c.uuidNew s2.world).1 } } ∧
    csr1.Status.Topic ≠ "" ∧
    csr1.Status.NotificationID = original.Status.NotificationID ∧
    s5.log = s4.log ++ [Call.clientUpdate original.meta.Namespace csr1] ∧
    (∀ x, r = .ok x → Reconcile c key s = (some e, s5)) ∧
    (∀ uerr, r = .error uerr → Reconcile c key s = (some uerr, s5)) := by
  have hcsr1 := reconcileTopic_resource c original s2
  rw [htopic, if_pos hempty] at hcsr1
  simp only at hcsr1
  have hne : csr1.Status.Topic ≠ "" := by
    rw [hcsr1]
    exact gcs_prefix_ne_empty _
  have hpass := reconcileGCSSource_topic_failure c original csr1 s1 s2 s3 u e hactive hsink htopic
  have hdiff : original.Status ≠ csr1.Status := by
    intro h
    apply hne
    rw [← h]
    exact hempty
  have hupdate : update c csr1 s3 = (r, s5) := by
    unfold update
    rw [hcsr1]
    rw [hcsr1] at hdiff
    simp only [hget2]
    have hd : reflect.DeepEqualStatus original.Status
        { original.Status with Topic := "gcs-" ++ (c.uuidNew s2.world).1 } = false := by
      unfold reflect.DeepEqualStatus
      exact decide_eq_false hdiff
    simp only [hd]
    simp only [Bool.not_false, Bool.true_or, if_true]
    exact hwrite
  have hsem : equality.Semantic.DeepEqualStatus original.Status csr1.Status = false := by
    unfold equality.Semantic.DeepEqualStatus
    exact decide_eq_false hdiff
  refine ⟨hcsr1, hne, ?_, ?_, ?_, ?_⟩
  · rw [hcsr1]
  · rw [hcsr1]
    exact (congrArg (fun r => r.2.log) hwrite).symm
  · intro x hx
    unfold Reconcile
    simp only [hkey, hget, hpass, hsem, hupdate, hx]
    simp
  · intro uerr hx
    unfold Reconcile
    simp only [hkey, hget, hpass, hsem, hupdate, hx]
    simp

theorem Reconcile_persists_generated_topic_witness :
    Reconcile modelCloud "ns/src" (St.init sampleWorldExistsDown) =
      (some sampleUnavailable,
        ⟨{ sampleWorldExistsDown with uuids := [], store := [sampleNewWithTopic] },
          [Call.listerGet "ns" "src", Call.GetSinkURI (some sampleSink) "ns", Call.uuidNew,
            Call.pubsubNewClient "p1", Call.topicExists "p1" "gcs-u0", Call.listerGet "ns" "src",
            Call.clientUpdate "ns" sampleNewWithTopic]⟩) :=
  (Reconcile_persists_generated_topic modelCloud "ns/src" "ns" "src" sampleNew sampleNewWithTopic
    (St.init sampleWorldExistsDown)
    ⟨sampleWorldExistsDown, [Call.listerGet "ns" "src"]⟩
    ⟨sampleWorldExistsDown,
      [Call.listerGet "ns" "src", Call.GetSinkURI (some sampleSink) "ns"]⟩
    ⟨{ sampleWorldExistsDown with uuids := [] },
      [Call.listerGet "ns" "src", Call.GetSinkURI (some sampleSink) "ns", Call.uuidNew,
        Call.pubsubNewClient "p1", Call.topicExists "p1" "gcs-u0"]⟩
    ⟨{ sampleWorldExistsDown with uuids := [] },
      [Call.listerGet "ns" "src", Call.GetSinkURI (some sampleSink) "ns", Call.uuidNew,
        Call.pubsubNewClient "p1", Call.topicExists "p1" "gcs-u0", Call.listerGet "ns" "src"]⟩
    _ "https://sink.example" sampleUnavailable (.ok sampleNewWithTopic)
    rfl rfl rfl rfl rfl rfl rfl rfl).2.2.2.2.1 sampleNewWithTopic rfl

/-! ## C8 -/

/-- The create request of `reconcileNotification`: every call it adds to the
log that creates something is the one `AddNotification` on the bucket of the
spec, bound to the project of the spec and the topic of the status, with the
payload format `storage.JSONPayload`. -/
theorem reconcileNotification_create_request {σ : Type} (c : Cloud σ) (gcs : GCSSource)
    (s : St σ) :
    ∃ extra, (reconcileNotification c gcs s).2.log = s.log ++ extra ∧
      ∀ k ∈ extra, k.isCreate = true →
        k = Call.AddNotification gcs.Spec.Bucket
          { ID := ""
            TopicProjectID := gcs.Spec.GoogleCloudProject
            TopicID := gcs.Status.Topic
            PayloadFormat := storage.JSONPayload } := by
  unfold reconcileNotification
  split
  · rename_i err s1 heq
    refine ⟨[Call.storageNewClient], (congrArg (fun r => r.2.log) heq).symm, ?_⟩
    intro k hk hcreate
    rw [List.mem_singleton.mp hk] at hcreate
    simp [Call.isCreate] at hcreate
  · rename_i s1 heq
    have h1 : s1.log = s.log ++ [Call.storageNewClient] :=
      (congrArg (fun r => r.2.log) heq).symm
    split
    · rename_i err s2 heq2
      have h2 : s2.log = s1.log ++ [Call.bucketNotifications gcs.Spec.Bucket] :=
        (congrArg (fun r => r.2.log) heq2).symm
      refine ⟨[Call.storageNewClient, Call.bucketNotifications gcs.Spec.Bucket], ?_, ?_⟩
      · simp [h2, h1]
      · intro k hk hcreate
        simp only [List.mem_cons, List.mem_singleton, List.not_mem_nil, or_false] at hk
        rcases hk with rfl | rfl <;> simp [Call.isCreate] at hcreate
    · rename_i notifications s2 heq2
      have h2 : s2.log = s1.log ++ [Call.bucketNotifications gcs.Spec.Bucket] :=
        (congrArg (fun r => r.2.log) heq2).symm
      have hfound : ∃ extra, s2.log = s.log ++ extra ∧ ∀ k ∈ extra, k.isCreate = true →
          k = Call.AddNotification gcs.Spec.Bucket
            { ID := ""
              TopicProjectID := gcs.Spec.GoogleCloudProject
              TopicID := gcs.Status.Topic
              PayloadFormat := storage.JSONPayload } := by
        refine ⟨[Call.storageNewClient, Call.bucketNotifications gcs.Spec.Bucket], ?_, ?_⟩
        · simp [h2, h1]
        · intro k hk hcreate
          simp only [List.mem_cons, List.mem_singleton, List.not_mem_nil, or_false] at hk
          rcases hk with rfl | rfl <;> simp [Call.isCreate] at hcreate
      have hcreated : ∃ extra,
          (s2.call (.AddNotification gcs.Spec.Bucket
              { ID := ""
                TopicProjectID := gcs.Spec.GoogleCloudProject
                TopicID := gcs.Status.Topic
                PayloadFormat := storage.JSONPayload })
            (fun w => c.AddNotification w gcs.Spec.Bucket
              { ID := ""
                TopicProjectID := gcs.Spec.GoogleCloudProject
                TopicID := gcs.Status.Topic
                PayloadFormat := storage.JSONPayload })).2.log = s.log ++ extra ∧
          ∀ k ∈ extra, k.isCreate = true →
            k = Call.AddNotification gcs.Spec.Bucket
              { ID := ""
                TopicProjectID := gcs.Spec.GoogleCloudProject
                TopicID := gcs.Status.Topic
                PayloadFormat := storage.JSONPayload } := by
        refine ⟨[Call.storageNewClient, Call.bucketNotifications gcs.Spec.Bucket,
          Call.AddNotification gcs.Spec.Bucket
            { ID := ""
              TopicProjectID := gcs.Spec.GoogleCloudProject
              TopicID := gcs.Status.Topic
              PayloadFormat := storage.JSONPayload }], ?_, ?_⟩
        · simp [St.call, h2, h1]
        · intro k hk hcreate
          simp only [List.mem_cons, List.mem_singleton, List.not_mem_nil, or_false] at hk
          rcases hk with rfl | rfl | rfl
          · simp [Call.isCreate] at hcreate
          · simp [Call.isCreate] at hcreate
          · rfl
      dsimp only
      split
      · split
        · exact hfound
        · exact hcreated
      · exact hcreated

/-- C8, on the code: the resource `sampleNewWithTopic` asks for the payload
format `NONE` and has no notification yet; `reconcileNotification` creates
one, and the create request is bound to project `p1` and topic `gcs-u0` as
the claim says, but carries the payload format `JSON_API_V1`, not the one
of the spec. -/
theorem reconcileNotification_payload_format_hardcoded :
    sampleNewWithTopic.Spec.PayloadFormat = "NONE" ∧
    sampleNewWithTopic.Status.NotificationID = "" ∧
    (reconcileNotification modelCloud sampleNewWithTopic (St.init sampleWorld)).2.log =
      [Call.storageNewClient, Call.bucketNotifications "b1",
        Call.AddNotification "b1"
          { ID := "", TopicProjectID := "p1", TopicID := "gcs-u0",
            PayloadFormat := "JSON_API_V1" }] ∧
    (reconcileNotification modelCloud sampleNewWithTopic (St.init sampleWorld)).1 =
      .ok { ID := "n", TopicProjectID := "p1", TopicID := "gcs-u0",
            PayloadFormat := "JSON_API_V1" } ∧
    sampleNewWithTopic.Spec.PayloadFormat ≠ "JSON_API_V1" := by
  refine ⟨rfl, rfl, rfl, rfl, by decide⟩

/-! ## The steps in the model world -/

theorem reconcileTopic_model_exists (csr : GCSSource) (s : St World)
    (hne : csr.Status.Topic ≠ "")
    (hclient : s.world.faults.pubsubNewClient = none)
    (hexists : s.world.faults.topicExists = none)
    (hmem : (csr.Spec.GoogleCloudProject, csr.Status.Topic) ∈ s.world.topics) :
    reconcileTopic modelCloud csr s =
      (none, csr, ⟨s.world, s.log ++ [Call.pubsubNewClient csr.Spec.GoogleCloudProject,
        Call.topicExists csr.Spec.GoogleCloudProject csr.Status.Topic]⟩) := by
  unfold reconcileTopic
  simp [St.call, modelCloud, hne, hclient, hexists, hmem]

theorem reconcileTopic_model_fresh (csr : GCSSource) (s : St World)
    (hempty : csr.Status.Topic = "")
    (hclient : s.world.faults.pubsubNewClient = none)
    (hexists : s.world.faults.topicExists = none)
    (hcreate : s.world.faults.CreateTopic = none)
    (hfresh : (csr.Spec.GoogleCloudProject, "gcs-" ++ s.world.uuids.headD "") ∉ s.world.topics) :
    reconcileTopic modelCloud csr s =
      (none,
        { csr with Status := { csr.Status with Topic := "gcs-" ++ s.world.uuids.headD "" } },
        ⟨{ s.world with
            uuids := s.world.uuids.tail
            topics := (csr.Spec.GoogleCloudProject, "gcs-" ++ s.world.uuids.headD "")
              :: s.world.topics },
          s.log ++ [Call.uuidNew, Call.pubsubNewClient csr.Spec.GoogleCloudProject,
            Call.topicExists csr.Spec.GoogleCloudProject ("gcs-" ++ s.world.uuids.headD ""),
            Call.CreateTopic csr.Spec.GoogleCloudProject ("gcs-" ++ s.world.uuids.headD "")]⟩) := by
  have hfresh2 := hfresh
  simp only [List.headD_eq_head?_getD] at hfresh2
  unfold reconcileTopic
  simp [St.call, modelCloud, hempty, hclient, hexists, hcreate, hfresh2]

theorem reconcileTopic_model_ok (csr csr1 : GCSSource) (s s1 : St World)
    (h : reconcileTopic modelCloud csr s = (none, csr1, s1)) :
    s1.world.sinks = s.world.sinks ∧ s1.world.faults = s.world.faults ∧
    s1.world.relays = s.world.relays ∧ s1.world.notifications = s.world.notifications ∧
    s1.world.created = s.world.created ∧ s1.world.store = s.world.store ∧
    s.world.faults.pubsubNewClient = none ∧ s.world.faults.topicExists = none ∧
    (csr1.Spec.GoogleCloudProject, csr1.Status.Topic) ∈ s1.world.topics := by
  unfold reconcileTopic at h
  cases hc : s.world.faults.pubsubNewClient with
  | some e => by_cases ht : csr.Status.Topic = "" <;> simp [St.call, modelCloud, hc, ht] at h
  | none =>
    cases he : s.world.faults.topicExists with
    | some e =>
      by_cases ht : csr.Status.Topic = "" <;> simp [St.call, modelCloud, hc, he, ht] at h
    | none =>
      by_cases ht : csr.Status.Topic = ""
      · by_cases hg : (csr.Spec.GoogleCloudProject, "gcs-" ++ s.world.uuids.head?.getD "")
          ∈ s.world.topics
        · simp [St.call, modelCloud, hc, he, ht, hg] at h
          obtain ⟨rfl, rfl⟩ := h
          simp [hg]
        · cases hcr : s.world.faults.CreateTopic with
          | some e => simp [St.call, modelCloud, hc, he, ht, hg, hcr] at h
          | none =>
            simp [St.call, modelCloud, hc, he, ht, hg, hcr] at h
            obtain ⟨rfl, rfl⟩ := h
            simp
      · by_cases hm : (csr.Spec.GoogleCloudProject, csr.Status.Topic) ∈ s.world.topics
        · simp [St.call, modelCloud, hc, he, ht, hm] at h
          obtain ⟨rfl, rfl⟩ := h
          simp [hm]
        · cases hcr : s.world.faults.CreateTopic with
          | some e => simp [St.call, modelCloud, hc, he, ht, hm, hcr] at h
          | none =>
            simp [St.call, modelCloud, hc, he, ht, hm, hcr] at h
            obtain ⟨rfl, rfl⟩ := h
            simp

theorem nextID_ne_empty (w : World) : w.nextID ≠ "" := by
  intro h
  have h2 := congrArg String.data h
  simp [World.nextID] at h2

theorem lookup_keyed_by_id (l : List (String × Notification)) (bucket k : String)
    (n : Notification)
    (h : ((l.filter (fun bn => bn.1 = bucket)).map (fun bn => (bn.2.ID, bn.2))).lookup k
      = some n) : n.ID = k := by
  induction l with
  | nil => simp at h
  | cons x xs ih =>
    by_cases hb : x.1 = bucket
    · simp only [List.filter_cons, hb, decide_True, if_true, List.map_cons, List.lookup_cons] at h
      by_cases hk : k = x.2.ID
      · subst hk
        simp at h
        rw [← h]
      · have hk2 : (k == x.2.ID) = false := by simpa using hk
        rw [hk2] at h
        exact ih h
    · simp only [List.filter_cons, hb, decide_False] at h
      exact ih h

theorem listing_lookup_id (w : World) (bucket k : String) (n : Notification)
    (h : (w.listing bucket).lookup k = some n) : n.ID = k :=
  lookup_keyed_by_id w.notifications bucket k n h

theorem reconcilePubSub_model_exists (csr : GCSSource) (s : St World) (p : GcpPubSubSource)
    (hget : s.world.faults.pubsubSourceGet = none)
    (hfind : s.world.findRelay csr.meta.Namespace csr.meta.Name = some p) :
    reconcilePubSub modelCloud csr s =
      (.ok p, ⟨s.world, s.log ++ [Call.pubsubSourceGet csr.meta.Namespace csr.meta.Name]⟩) := by
  unfold reconcilePubSub
  simp only [St.call, modelCloud, hget, hfind]

theorem reconcilePubSub_model_ok (csr : GCSSource) (s s1 : St World) (p : GcpPubSubSource)
    (hget : s.world.faults.pubsubSourceGet = none)
    (h : reconcilePubSub modelCloud csr s = (.ok p, s1)) :
    s1.world.sinks = s.world.sinks ∧ s1.world.faults = s.world.faults ∧
    s1.world.topics = s.world.topics ∧ s1.world.notifications = s.world.notifications ∧
    s1.world.created = s.world.created ∧ s1.world.store = s.world.store ∧
    ∃ q, s1.world.findRelay csr.meta.Namespace csr.meta.Name = some q := by
  unfold reconcilePubSub at h
  cases hfind : s.world.findRelay csr.meta.Namespace csr.meta.Name with
  | some q =>
    simp only [St.call, modelCloud, hget, hfind] at h
    simp at h
    obtain ⟨-, rfl⟩ := h
    exact ⟨rfl, rfl, rfl, rfl, rfl, rfl, q, hfind⟩
  | none =>
    cases hcr : s.world.faults.pubsubSourceCreate with
    | some e =>
      simp [St.call, modelCloud, hget, hfind, hcr, errors.IsNotFound, resources.MakePubSub] at h
    | none =>
      simp [St.call, modelCloud, hget, hfind, hcr, errors.IsNotFound, resources.MakePubSub] at h
      obtain ⟨-, rfl⟩ := h
      simp [World.findRelay]

theorem reconcileNotification_model_exists (gcs : GCSSource) (s : St World) (n : Notification)
    (hclient : s.world.faults.storageNewClient = none)
    (hlist : s.world.faults.bucketNotifications = none)
    (hne : gcs.Status.NotificationID ≠ "")
    (hfound : (s.world.listing gcs.Spec.Bucket).lookup gcs.Status.NotificationID = some n) :
    reconcileNotification modelCloud gcs s =
      (.ok n, ⟨s.world, s.log ++ [Call.storageNewClient,
        Call.bucketNotifications gcs.Spec.Bucket]⟩) := by
  unfold reconcileNotification
  simp [St.call, modelCloud, hclient, hlist, hne, hfound]

theorem AddNotification_model_ok (w : World) (bucket : String) (req n : Notification)
    (h : (modelCloud.AddNotification w bucket req).1 = .ok n) :
    (modelCloud.AddNotification w bucket req).2.sinks = w.sinks ∧
    (modelCloud.AddNotification w bucket req).2.faults = w.faults ∧
    (modelCloud.AddNotification w bucket req).2.topics = w.topics ∧
    (modelCloud.AddNotification w bucket req).2.relays = w.relays ∧
    (modelCloud.AddNotification w bucket req).2.store = w.store ∧
    n.ID ≠ "" ∧
    ((modelCloud.AddNotification w bucket req).2.listing bucket).lookup n.ID = some n := by
  cases ha : w.faults.AddNotification with
  | some e => simp [modelCloud, ha] at h
  | none =>
    simp only [modelCloud, ha] at h ⊢
    have hn : n = { req with ID := w.nextID } := by
      injection h with h
      exact h.symm
    subst hn
    refine ⟨trivial, trivial, trivial, trivial, trivial, nextID_ne_empty w, ?_⟩
    simp [World.listing]

theorem reconcileNotification_model_ok (gcs : GCSSource) (s s1 : St World) (n : Notification)
    (h : reconcileNotification modelCloud gcs s = (.ok n, s1)) :
    s1.world.sinks = s.world.sinks ∧ s1.world.faults = s.world.faults ∧
    s1.world.topics = s.world.topics ∧ s1.world.relays = s.world.relays ∧
    s1.world.store = s.world.store ∧
    s.world.faults.storageNewClient = none ∧ s.world.faults.bucketNotifications = none ∧
    n.ID ≠ "" ∧ (s1.world.listing gcs.Spec.Bucket).lookup n.ID = some n := by
  have hclient : ∀ w : World, modelCloud.storageNewClient w = (w.faults.storageNewClient, w) :=
    fun _ => rfl
  have hlist : ∀ (w : World) (b : String), modelCloud.bucketNotifications w b =
      (match w.faults.bucketNotifications with
        | some err => (.error err, w)
        | none => (.ok (w.listing b), w)) := fun _ _ => rfl
  unfold reconcileNotification at h
  simp only [St.call, hclient, hlist] at h
  cases hc : s.world.faults.storageNewClient with
  | some e => simp [hc] at h
  | none =>
    cases hl : s.world.faults.bucketNotifications with
    | some e => simp [hc, hl] at h
    | none =>
      simp only [hc, hl] at h
      have hcreate : ∀ lg : List Call,
          ((modelCloud.AddNotification s.world gcs.Spec.Bucket
              { ID := "", TopicProjectID := gcs.Spec.GoogleCloudProject,
                TopicID := gcs.Status.Topic, PayloadFormat := storage.JSONPayload }).1,
            (⟨(modelCloud.AddNotification s.world gcs.Spec.Bucket
              { ID := "", TopicProjectID := gcs.Spec.GoogleCloudProject,
                TopicID := gcs.Status.Topic, PayloadFormat := storage.JSONPayload }).2, lg⟩ :
              St World)) = (.ok n, s1) →
          s1.world.sinks = s.world.sinks ∧ s1.world.faults = s.world.faults ∧
          s1.world.topics = s.world.topics ∧ s1.world.relays = s.world.relays ∧
          s1.world.store = s.world.store ∧
          none = (none : Option GoError) ∧ none = (none : Option GoError) ∧
          n.ID ≠ "" ∧ (s1.world.listing gcs.Spec.Bucket).lookup n.ID = some n := by
        intro lg heq
        obtain ⟨h1, h2⟩ := Prod.mk.inj heq
        obtain ⟨a1, a2, a3, a4, a5, a6, a7⟩ := AddNotification_model_ok _ _ _ _ h1
        rw [← h2]
        exact ⟨a1, a2, a3, a4, a5, rfl, rfl, a6, a7⟩
      by_cases hne : gcs.Status.NotificationID = ""
      · simp only [hne, ne_eq, not_true_eq_false, if_false] at h
        exact hcreate _ h
      · simp only [ne_eq, hne, not_false_eq_true, if_true] at h
        cases hfound : (s.world.listing gcs.Spec.Bucket).lookup gcs.Status.NotificationID with
        | some existing =>
          simp only [hfound] at h
          obtain ⟨h1, h2⟩ := Prod.mk.inj h
          injection h1 with h1
          subst h1
          subst h2
          have hid := listing_lookup_id _ _ _ _ hfound
          refine ⟨rfl, rfl, rfl, rfl, rfl, rfl, rfl, ?_, ?_⟩
          · rw [hid]
            exact hne
          · rw [hid]
            exact hfound
        | none =>
          simp only [hfound] at h
          exact hcreate _ h

/-! ## A pass that finds everything in place -/

/-- The pass on a resource with `deletionTimestamp` unset, all steps
succeeding. -/
theorem reconcileGCSSource_active_eq {σ : Type} (c : Cloud σ) (csr csr1 : GCSSource)
    (s s1 s2 s3 s4 : St σ) (u : String) (p : GcpPubSubSource) (n : Notification)
    (hactive : csr.meta.DeletionTimestamp = none)
    (hsink : s.call (.GetSinkURI csr.Spec.Sink csr.meta.Namespace)
      (fun w => c.GetSinkURI w csr.Spec.Sink csr.meta.Namespace) = (.ok u, s1))
    (htopic : reconcileTopic c csr s1 = (none, csr1, s2))
    (hrelay : reconcilePubSub c
      { addFinalizer csr1 with Status := { (addFinalizer csr1).Status with SinkURI := u } } s2
        = (.ok p, s3))
    (hnotif : reconcileNotification c
      { addFinalizer csr1 with Status := { (addFinalizer csr1).Status with SinkURI := u } } s3
        = (.ok n, s4)) :
    reconcileGCSSource c csr s =
      (none, { addFinalizer csr1 with
        Status := { (addFinalizer csr1).Status with SinkURI := u, NotificationID := n.ID } }, s4) := by
  unfold reconcileGCSSource
  simp only [hsink, hactive, htopic, hrelay, hnotif]
  simp

/-- A pass on a resource with `deletionTimestamp` unset that returns no
error went through all four steps. -/
theorem reconcileGCSSource_active_inv {σ : Type} (c : Cloud σ) (csr out : GCSSource)
    (s s4 : St σ)
    (hactive : csr.meta.DeletionTimestamp = none)
    (h : reconcileGCSSource c csr s = (none, out, s4)) :
    ∃ (u : String) (s1 : St σ) (csr1 : GCSSource) (s2 : St σ) (p : GcpPubSubSource)
      (s3 : St σ) (n : Notification),
      s.call (.GetSinkURI csr.Spec.Sink csr.meta.Namespace)
        (fun w => c.GetSinkURI w csr.Spec.Sink csr.meta.Namespace) = (.ok u, s1) ∧
      reconcileTopic c csr s1 = (none, csr1, s2) ∧
      reconcilePubSub c
        { addFinalizer csr1 with Status := { (addFinalizer csr1).Status with SinkURI := u } } s2
          = (.ok p, s3) ∧
      reconcileNotification c
        { addFinalizer csr1 with Status := { (addFinalizer csr1).Status with SinkURI := u } } s3
          = (.ok n, s4) ∧
      out = { addFinalizer csr1 with
        Status := { (addFinalizer csr1).Status with SinkURI := u, NotificationID := n.ID } } := by
  rcases hsink : s.call (.GetSinkURI csr.Spec.Sink csr.meta.Namespace)
    (fun w => c.GetSinkURI w csr.Spec.Sink csr.meta.Namespace) with ⟨r, s1⟩
  cases r with
  | error e =>
    unfold reconcileGCSSource at h
    simp [hsink, hactive] at h
  | ok u =>
    rcases htopic : reconcileTopic c csr s1 with ⟨e1, csr1, s2⟩
    cases e1 with
    | some e =>
      unfold reconcileGCSSource at h
      simp [hsink, hactive, htopic] at h
    | none =>
      rcases hrelay : reconcilePubSub c
        { addFinalizer csr1 with Status := { (addFinalizer csr1).Status with SinkURI := u } } s2
        with ⟨r2, s3⟩
      cases r2 with
      | error e =>
        unfold reconcileGCSSource at h
        simp [hsink, hactive, htopic, hrelay] at h
      | ok p =>
        rcases hnotif : reconcileNotification c
          { addFinalizer csr1 with Status := { (addFinalizer csr1).Status with SinkURI := u } } s3
          with ⟨r3, s5⟩
        cases r3 with
        | error e =>
          unfold reconcileGCSSource at h
          simp [hsink, hactive, htopic, hrelay, hnotif] at h
        | ok n =>
          have hrun := reconcileGCSSource_active_eq c csr csr1 s s1 s2 s3 s5 u p n hactive hsink
            htopic hrelay hnotif
          rw [hrun] at h
          obtain ⟨-, h2⟩ := Prod.mk.inj h
          obtain ⟨h3, h4⟩ := Prod.mk.inj h2
          subst h4
          refine ⟨u, s1, csr1, s2, p, s3, n, ?_, ?_, ?_, ?_, h3.symm⟩ <;>
            first | assumption | rfl

theorem addFinalizer_fixed (csr : GCSSource) (l : List String)
    (hfin : csr.meta.Finalizers = some l) (hsorted : l.Sorted (· < ·))
    (hmem : "gcs-controller" ∈ l) : addFinalizer csr = csr := by
  have h : sets.Insert (sets.NewString csr.meta.Finalizers) finalizerName = l := by
    rw [hfin, NewString_of_sorted l hsorted]
    exact insertKey_of_mem _ l hsorted hmem
  unfold addFinalizer
  simp only [h, sets.List, ← hfin]

theorem GetSinkURI_model_ok (w : World) (sink : Option ObjectReference) (ns u : String)
    (s1 : St World) (lg : List Call)
    (h : (⟨w, lg⟩ : St World).call (.GetSinkURI sink ns)
      (fun w => modelCloud.GetSinkURI w sink ns) = (.ok u, s1)) :
    w.sinks.lookup (sink, ns) = some u ∧ s1.world = w := by
  cases hl : w.sinks.lookup (sink, ns) with
  | none => simp [St.call, modelCloud, hl] at h
  | some v =>
    simp [St.call, modelCloud, hl] at h
    obtain ⟨rfl, rfl⟩ := h
    exact ⟨rfl, rfl⟩

/-- After a pass that returned no error, the world holds everything the
status names. -/
theorem settled_after_pass (w : World) (csr out : GCSSource) (s1 : St World) (lg : List Call)
    (hactive : csr.meta.DeletionTimestamp = none)
    (hget : w.faults.pubsubSourceGet = none)
    (hfirst : reconcileGCSSource modelCloud csr ⟨w, lg⟩ = (none, out, s1)) :
    Settled s1.world out ∧ out.meta.DeletionTimestamp = none := by
  obtain ⟨u, sA, csr1, sB, p, sC, n, hsink, htopic, hrelay, hnotif, hout⟩ :=
    reconcileGCSSource_active_inv modelCloud csr out _ s1 hactive hfirst
  obtain ⟨hlookup, hA⟩ := GetSinkURI_model_ok w _ _ u sA lg hsink
  have hcsr1 := reconcileTopic_resource modelCloud csr sA
  rw [htopic] at hcsr1
  simp only at hcsr1
  have hspec : csr1.Spec = csr.Spec := by
    rw [hcsr1]
    split <;> rfl
  have hmeta : csr1.meta = csr.meta := by
    rw [hcsr1]
    split <;> rfl
  have htne : csr1.Status.Topic ≠ "" := by
    rw [hcsr1]
    split
    · exact gcs_prefix_ne_empty _
    · assumption
  obtain ⟨t1, t2, t3, t4, t5, t6, t7, t8, t9⟩ := reconcileTopic_model_ok csr csr1 sA sB htopic
  rw [hA] at t1 t2 t3 t4 t5 t6 t7 t8
  have hgetB : sB.world.faults.pubsubSourceGet = none := by rw [t2]; exact hget
  obtain ⟨r1, r2, r3, r4, r5, r6, q, r7⟩ := reconcilePubSub_model_ok _ sB sC p hgetB hrelay
  obtain ⟨n1, n2, n3, n4, n5, n6, n7, n8, n9⟩ := reconcileNotification_model_ok _ sC s1 n hnotif
  obtain ⟨-, -, l, hl, hsorted, hmem⟩ := addFinalizer_spec csr1
  have hfaults : s1.world.faults = w.faults := by rw [n2, r2, t2]
  subst hout
  refine ⟨⟨?_, ⟨?_, ?_, ?_, ?_, ?_⟩, ⟨htne, ?_⟩, ⟨q, ?_⟩, ⟨n8, n, n9⟩, ⟨l, ?_, hsorted, ?_⟩⟩, ?_⟩
  · show s1.world.sinks.lookup (csr1.Spec.Sink, (addFinalizer csr1).meta.Namespace) = some u
    rw [n1, r1, t1, hl, hspec, hmeta]
    exact hlookup
  · rw [hfaults]; exact t7
  · rw [hfaults]; exact t8
  · rw [hfaults]; exact hget
  · rw [n2] at *; exact n6
  · rw [n2] at *; exact n7
  · show (csr1.Spec.GoogleCloudProject, csr1.Status.Topic) ∈ s1.world.topics
    rw [n3, r3]
    exact t9
  · show s1.world.findRelay (addFinalizer csr1).meta.Namespace (addFinalizer csr1).meta.Name = _
    have hrel : s1.world.findRelay = sC.world.findRelay := by
      funext a b
      unfold World.findRelay
      rw [n4]
    rw [hrel]
    exact r7
  · show (addFinalizer csr1).meta.Finalizers = some l
    rw [hl]
  · exact (hmem "gcs-controller").mpr (Or.inr rfl)
  · show (addFinalizer csr1).meta.DeletionTimestamp = none
    rw [hl, hmeta]
    exact hactive

/-- A pass on a resource the world is settled for finds everything in
place: it returns no error, leaves the resource and the world as they were
and makes six calls, all of them look-ups. -/
theorem pass_on_settled (w : World) (out : GCSSource) (lg : List Call)
    (hactive : out.meta.DeletionTimestamp = none)
    (hsettled : Settled w out) :
    reconcileGCSSource modelCloud out ⟨w, lg⟩ = (none, out, ⟨w, lg ++ settledCalls out⟩) := by
  obtain ⟨hsink, ⟨f1, f2, f3, f4, f5⟩, ⟨htne, htopic⟩, ⟨p, hrelay⟩, ⟨hnne, n, hnotif⟩,
    ⟨l, hfin, hsorted, hmem⟩⟩ := hsettled
  have hfix := addFinalizer_fixed out l hfin hsorted hmem
  have hmid : ({ addFinalizer out with
      Status := { (addFinalizer out).Status with SinkURI := out.Status.SinkURI } } : GCSSource)
      = out := by
    rw [hfix]
  have hid : n.ID = out.Status.NotificationID := listing_lookup_id _ _ _ _ hnotif
  have hrun := reconcileGCSSource_active_eq modelCloud out out ⟨w, lg⟩
    ⟨w, lg ++ [Call.GetSinkURI out.Spec.Sink out.meta.Namespace]⟩
    ⟨w, lg ++ [Call.GetSinkURI out.Spec.Sink out.meta.Namespace] ++
      [Call.pubsubNewClient out.Spec.GoogleCloudProject,
        Call.topicExists out.Spec.GoogleCloudProject out.Status.Topic]⟩
    ⟨w, lg ++ [Call.GetSinkURI out.Spec.Sink out.meta.Namespace] ++
      [Call.pubsubNewClient out.Spec.GoogleCloudProject,
        Call.topicExists out.Spec.GoogleCloudProject out.Status.Topic] ++
      [Call.pubsubSourceGet out.meta.Namespace out.meta.Name]⟩
    ⟨w, lg ++ [Call.GetSinkURI out.Spec.Sink out.meta.Namespace] ++
      [Call.pubsubNewClient out.Spec.GoogleCloudProject,
        Call.topicExists out.Spec.GoogleCloudProject out.Status.Topic] ++
      [Call.pubsubSourceGet out.meta.Namespace out.meta.Name] ++
      [Call.storageNewClient, Call.bucketNotifications out.Spec.Bucket]⟩
    out.Status.SinkURI p n hactive
    (by simp only [St.call, modelCloud, hsink])
    (reconcileTopic_model_exists out _ htne f1 f2 htopic)
    (by rw [hmid]; exact reconcilePubSub_model_exists out _ p f3 hrelay)
    (by rw [hmid]; exact reconcileNotification_model_exists out _ n f4 f5 hnne hnotif)
  rw [hrun]
  have hout : ({ addFinalizer out with
      Status := { (addFinalizer out).Status with
        SinkURI := out.Status.SinkURI, NotificationID := n.ID } } : GCSSource) = out := by
    rw [hfix, hid]
  rw [hout]
  simp [settledCalls]

theorem Settled_store (w : World) (out : GCSSource) (store : List GCSSource)
    (h : Settled w out) : Settled { w with store := store } out := h

/-! ## C9 -/

/-- C9: in the model of the outside world (`World`: the topics that exist, the
relays by namespace and name, the notifications per bucket), for a resource
with `deletionTimestamp` unset and a world whose relay look-up is not made to
fail, when a first pass returns no error with resource `out` and world `w1`,
a second pass on `out` and `w1` returns no error, leaves the resource `out` and
the world `w1`, and makes six calls, none of which creates anything; the
equality check of `Reconcile` finds `out` equal to itself; and `Reconcile`, on
`w1` with `out` in the informer cache, returns no error after the look-up of
the resource and those six calls, with no create and no update among them. -/
theorem reconcile_twice_is_noop (w : World) (csr out : GCSSource) (s1 : St World)
    (hactive : csr.meta.DeletionTimestamp = none)
    (hget : w.faults.pubsubSourceGet = none)
    (hfirst : reconcileGCSSource modelCloud csr (St.init w) = (none, out, s1)) :
    reconcileGCSSource modelCloud out (St.init s1.world) =
      (none, out, ⟨s1.world, settledCalls out⟩) ∧
    (∀ k ∈ settledCalls out, k.isCreate = false ∧ k.isUpdate = false) ∧
    (equality.Semantic.DeepEqualStatus out.Status out.Status &&
      equality.Semantic.DeepEqualMeta out.meta out.meta) = true ∧
    (∀ (key ns name : String) (store : List GCSSource),
      SplitMetaNamespaceKey key = .ok (ns, name) →
      World.findSource { s1.world with store := store } ns name = some out →
      Reconcile modelCloud key (St.init { s1.world with store := store }) =
        (none, ⟨{ s1.world with store := store }, Call.listerGet ns name :: settledCalls out⟩) ∧
      (Call.listerGet ns name).isCreate = false ∧ (Call.listerGet ns name).isUpdate = false) := by
  obtain ⟨hsettled, hactive2⟩ := settled_after_pass w csr out s1 [] hactive hget hfirst
  have heq : (equality.Semantic.DeepEqualStatus out.Status out.Status &&
      equality.Semantic.DeepEqualMeta out.meta out.meta) = true := by
    simp [equality.Semantic.DeepEqualStatus, equality.Semantic.DeepEqualMeta]
  refine ⟨?_, ?_, heq, ?_⟩
  · have h := pass_on_settled s1.world out [] hactive2 hsettled
    simpa [St.init] using h
  · intro k hk
    simp only [settledCalls, List.mem_cons, List.mem_singleton, List.not_mem_nil, or_false] at hk
    rcases hk with rfl | rfl | rfl | rfl | rfl | rfl <;> exact ⟨rfl, rfl⟩
  · intro key ns name store hkey hfind
    refine ⟨?_, rfl, rfl⟩
    have hpass := pass_on_settled { s1.world with store := store } out [Call.listerGet ns name]
      hactive2 (Settled_store s1.world out store hsettled)
    have hlist : (St.init ({ s1.world with store := store } : World)).call
        (.listerGet ns name) (fun w => modelCloud.listerGet w ns name) =
        (.ok out, ⟨{ s1.world with store := store }, [Call.listerGet ns name]⟩) := by
      simp only [St.call, St.init, modelCloud, hfind, List.nil_append]
    unfold Reconcile
    simp only [hkey, hlist, hpass, heq]
    rfl

theorem reconcile_twice_is_noop_witness :
    reconcileGCSSource modelCloud sampleNew (St.init sampleWorld) =
      (none, sampleSettled, ⟨sampleWorldSettled, sampleFirstCalls⟩) ∧
    reconcileGCSSource modelCloud sampleSettled (St.init sampleWorldSettled) =
      (none, sampleSettled, ⟨sampleWorldSettled, settledCalls sampleSettled⟩) ∧
    Reconcile modelCloud "ns/src" (St.init { sampleWorldSettled with store := [sampleSettled] }) =
      (none, ⟨{ sampleWorldSettled with store := [sampleSettled] },
        Call.listerGet "ns" "src" :: settledCalls sampleSettled⟩) :=
  have h := reconcile_twice_is_noop sampleWorld sampleNew sampleSettled
    ⟨sampleWorldSettled, sampleFirstCalls⟩ rfl rfl rfl
  ⟨rfl, h.1, (h.2.2.2 "ns/src" "ns" "src" [sampleSettled] rfl rfl).1⟩

/-! ## C10 -/

/-- C10: in the model of the outside world, for every project and every set
of existing topics that does not hold the identifier about to be generated
(UUIDs are unique), with the Pub/Sub client, the existence check and the
create call not made to fail, `reconcileTopic` on an empty `status.topic`
returns no error, stores `gcs-` and the generated UUID in `status.topic` and
issues exactly one create request, for that ID, after which the topic exists;
called again with that ID on the resulting world it returns no error, issues
no create request and leaves `status.topic` and the world as they were. -/
theorem reconcileTopic_creates_once (w : World) (csr : GCSSource)
    (hempty : csr.Status.Topic = "")
    (hclient : w.faults.pubsubNewClient = none)
    (hexists : w.faults.topicExists = none)
    (hcreate : w.faults.CreateTopic = none)
    (hfresh : (csr.Spec.GoogleCloudProject, "gcs-" ++ w.uuids.headD "") ∉ w.topics) :
    ∃ (csr1 : GCSSource) (s1 : St World),
      reconcileTopic modelCloud csr (St.init w) = (none, csr1, s1) ∧
      csr1.Status.Topic = "gcs-" ++ (modelCloud.uuidNew w).1 ∧
      s1.log.filter Call.isCreate =
        [Call.CreateTopic csr.Spec.GoogleCloudProject csr1.Status.Topic] ∧
      (csr.Spec.GoogleCloudProject, csr1.Status.Topic) ∈ s1.world.topics ∧
      ∃ s2 : St World,
        reconcileTopic modelCloud csr1 (St.init s1.world) = (none, csr1, s2) ∧
        s2.log.filter Call.isCreate = [] ∧
        s2.world = s1.world := by
  have hfirst := reconcileTopic_model_fresh csr (St.init w) hempty hclient hexists hcreate hfresh
  refine ⟨_, _, hfirst, rfl, ?_, ?_, ?_⟩
  · simp [St.init, Call.isCreate]
  · simp
  · have hsecond := reconcileTopic_model_exists
      { csr with Status := { csr.Status with Topic := "gcs-" ++ w.uuids.headD "" } }
      (St.init { w with
        uuids := w.uuids.tail
        topics := (csr.Spec.GoogleCloudProject, "gcs-" ++ w.uuids.headD "") :: w.topics })
      (gcs_prefix_ne_empty _) hclient hexists (List.mem_cons_self _ _)
    refine ⟨_, hsecond, ?_, rfl⟩
    simp [St.init, Call.isCreate]

theorem reconcileTopic_creates_once_witness :
    ∃ (csr1 : GCSSource) (s1 : St World),
      reconcileTopic modelCloud sampleNew (St.init sampleWorld) = (none, csr1, s1) ∧
      csr1.Status.Topic = "gcs-u0" ∧
      s1.log.filter Call.isCreate = [Call.CreateTopic "p1" "gcs-u0"] ∧
      ∃ s2 : St World,
        reconcileTopic modelCloud csr1 (St.init s1.world) = (none, csr1, s2) ∧
        s2.log.filter Call.isCreate = [] := by
  obtain ⟨csr1, s1, h1, h2, h3, -, s2, h5, h6, -⟩ :=
    reconcileTopic_creates_once sampleWorld sampleNew rfl rfl rfl rfl (by decide)
  rw [h2] at h3
  exact ⟨csr1, s1, h1, h2, h3, s2, h5, h6⟩

/-! ## A pass on a resource being deleted -/

/-- The calls `deleteTopic` makes: the construction of the Pub/Sub client,
and after it at most the delete of the topic. -/
theorem deleteTopic_log {σ : Type} (c : Cloud σ) (project topic : String) (s : St σ) :
    (deleteTopic c project topic s).2.log = s.log ++ [Call.pubsubNewClient project] ∨
    (deleteTopic c project topic s).2.log = s.log ++ [Call.pubsubNewClient project,
      Call.topicDelete project topic] := by
  unfold deleteTopic
  split
  · rename_i err s1 heq
    left
    exact (congrArg (fun r => r.2.log) heq).symm
  · rename_i s1 heq
    have h1 : s1.log = s.log ++ [Call.pubsubNewClient project] :=
      (congrArg (fun r => r.2.log) heq).symm
    right
    split
    · rename_i s2 heq2
      have h2 := (congrArg (fun r => r.2.log) heq2).symm
      simp only [St.call] at h2
      simp [h2, h1]
    · rename_i err s2 heq2
      have h2 := (congrArg (fun r => r.2.log) heq2).symm
      simp only [St.call] at h2
      split
      · simp [h2, h1]
      · split <;> simp [h2, h1]

/-- The pass on a resource with `deletionTimestamp` set: after the sink
resolution, whatever it gave, the notification delete, then the topic delete,
then the clearing of `status.topic` and of the finalizer. -/
theorem reconcileGCSSource_terminating_eq {σ : Type} (c : Cloud σ) (csr : GCSSource) (s : St σ)
    (hdel : csr.meta.DeletionTimestamp ≠ none) :
    reconcileGCSSource c csr s =
      match deleteNotification c csr
          (s.call (.GetSinkURI csr.Spec.Sink csr.meta.Namespace)
            (fun w => c.GetSinkURI w csr.Spec.Sink csr.meta.Namespace)).2 with
      | (some err, s2) => (some err, csr, s2)
      | (none, s2) =>
        match deleteTopic c csr.Spec.GoogleCloudProject csr.Status.Topic s2 with
        | (some err, s3) => (some err, csr, s3)
        | (none, s3) =>
          (none, removeFinalizer { csr with Status := { csr.Status with Topic := "" } }, s3) := by
  obtain ⟨t, ht⟩ : ∃ t, csr.meta.DeletionTimestamp = some t :=
    (Option.ne_none_iff_exists.mp hdel).imp (fun _ h => h.symm)
  unfold reconcileGCSSource
  simp only [ht]
  split
  · rename_i heq
    simp at heq
  · simp

/-! ## C11 -/

/-- C11: for a resource with `deletionTimestamp` set, whatever the sink
resolution and the delete calls give, the calls a pass of
`reconcileGCSSource` makes are among the sink resolution, the construction of
the storage client, the delete of the notification, the construction of the
Pub/Sub client and the delete of the topic, so none of them creates anything
and the ensure steps are not reached (no UUID is drawn, no topic is looked up,
no relay is looked up, no notification is listed); and the pass leaves `status.topic` as it was or empty, and `status.notificationID`
and `status.sinkURI` as they were. -/
theorem reconcileGCSSource_terminating_creates_nothing {σ : Type} (c : Cloud σ)
    (csr : GCSSource) (s : St σ)
    (hdel : csr.meta.DeletionTimestamp ≠ none) :
    (∃ extra, (reconcileGCSSource c csr s).2.2.log = s.log ++ extra ∧
      ∀ k ∈ extra, k.isCreate = false ∧
        (k = Call.GetSinkURI csr.Spec.Sink csr.meta.Namespace ∨
          k = Call.storageNewClient ∨
          k = Call.DeleteNotification csr.Spec.Bucket csr.Status.NotificationID ∨
          k = Call.pubsubNewClient csr.Spec.GoogleCloudProject ∨
          k = Call.topicDelete csr.Spec.GoogleCloudProject csr.Status.Topic)) ∧
    ((reconcileGCSSource c csr s).2.1.Status.Topic = csr.Status.Topic ∨
      (reconcileGCSSource c csr s).2.1.Status.Topic = "") ∧
    (reconcileGCSSource c csr s).2.1.Status.NotificationID = csr.Status.NotificationID ∧
    (reconcileGCSSource c csr s).2.1.Status.SinkURI = csr.Status.SinkURI := by
  have hkinds : ∀ extra : List Call,
      (∀ k ∈ extra,
        k = Call.GetSinkURI csr.Spec.Sink csr.meta.Namespace ∨
          k = Call.storageNewClient ∨
          k = Call.DeleteNotification csr.Spec.Bucket csr.Status.NotificationID ∨
          k = Call.pubsubNewClient csr.Spec.GoogleCloudProject ∨
          k = Call.topicDelete csr.Spec.GoogleCloudProject csr.Status.Topic) →
      ∀ k ∈ extra, k.isCreate = false ∧
        (k = Call.GetSinkURI csr.Spec.Sink csr.meta.Namespace ∨
          k = Call.storageNewClient ∨
          k = Call.DeleteNotification csr.Spec.Bucket csr.Status.NotificationID ∨
          k = Call.pubsubNewClient csr.Spec.GoogleCloudProject ∨
          k = Call.topicDelete csr.Spec.GoogleCloudProject csr.Status.Topic) := by
    intro extra h k hk
    refine ⟨?_, h k hk⟩
    rcases h k hk with rfl | rfl | rfl | rfl | rfl <;> rfl
  have hnlog := deleteNotification_log c csr
    (s.call (.GetSinkURI csr.Spec.Sink csr.meta.Namespace)
      (fun w => c.GetSinkURI w csr.Spec.Sink csr.meta.Namespace)).2
  rw [reconcileGCSSource_terminating_eq c csr s hdel]
  rcases hn : deleteNotification c csr
    (s.call (.GetSinkURI csr.Spec.Sink csr.meta.Namespace)
      (fun w => c.GetSinkURI w csr.Spec.Sink csr.meta.Namespace)).2 with ⟨e1, s2⟩
  rw [hn] at hnlog
  simp only [St.call] at hnlog
  have hs2 : ∃ mid, s2.log = s.log ++ mid ∧ ∀ k ∈ mid,
      k = Call.GetSinkURI csr.Spec.Sink csr.meta.Namespace ∨
        k = Call.storageNewClient ∨
        k = Call.DeleteNotification csr.Spec.Bucket csr.Status.NotificationID ∨
        k = Call.pubsubNewClient csr.Spec.GoogleCloudProject ∨
        k = Call.topicDelete csr.Spec.GoogleCloudProject csr.Status.Topic := by
    rcases hnlog with h | h
    · refine ⟨[Call.GetSinkURI csr.Spec.Sink csr.meta.Namespace, Call.storageNewClient], ?_, ?_⟩
      · rw [h]
        simp
      · intro k hk
        simp only [List.mem_cons, List.mem_singleton, List.not_mem_nil, or_false] at hk
        rcases hk with rfl | rfl <;> simp
    · refine ⟨[Call.GetSinkURI csr.Spec.Sink csr.meta.Namespace, Call.storageNewClient,
        Call.DeleteNotification csr.Spec.Bucket csr.Status.NotificationID], ?_, ?_⟩
      · rw [h]
        simp
      · intro k hk
        simp only [List.mem_cons, List.mem_singleton, List.not_mem_nil, or_false] at hk
        rcases hk with rfl | rfl | rfl <;> simp
  obtain ⟨mid, hmid, hmidk⟩ := hs2
  cases e1 with
  | some e =>
    exact ⟨⟨mid, hmid, hkinds mid hmidk⟩, Or.inl rfl, rfl, rfl⟩
  | none =>
    dsimp only
    have htlog := deleteTopic_log c csr.Spec.GoogleCloudProject csr.Status.Topic s2
    rcases ht : deleteTopic c csr.Spec.GoogleCloudProject csr.Status.Topic s2 with ⟨e2, s3⟩
    rw [ht] at htlog
    have hs3 : ∃ all, s3.log = s.log ++ all ∧ ∀ k ∈ all,
        k = Call.GetSinkURI csr.Spec.Sink csr.meta.Namespace ∨
          k = Call.storageNewClient ∨
          k = Call.DeleteNotification csr.Spec.Bucket csr.Status.NotificationID ∨
          k = Call.pubsubNewClient csr.Spec.GoogleCloudProject ∨
          k = Call.topicDelete csr.Spec.GoogleCloudProject csr.Status.Topic := by
      rcases htlog with h | h
      · refine ⟨mid ++ [Call.pubsubNewClient csr.Spec.GoogleCloudProject], ?_, ?_⟩
        · show s3.log = _
          rw [show s3.log = s2.log ++ [Call.pubsubNewClient csr.Spec.GoogleCloudProject] from h,
            hmid, List.append_assoc]
        · intro k hk
          rcases List.mem_append.mp hk with hk | hk
          · exact hmidk k hk
          · rw [List.mem_singleton.mp hk]
            simp
      · refine ⟨mid ++ [Call.pubsubNewClient csr.Spec.GoogleCloudProject,
          Call.topicDelete csr.Spec.GoogleCloudProject csr.Status.Topic], ?_, ?_⟩
        · show s3.log = _
          rw [show s3.log = s2.log ++ [Call.pubsubNewClient csr.Spec.GoogleCloudProject,
            Call.topicDelete csr.Spec.GoogleCloudProject csr.Status.Topic] from h,
            hmid, List.append_assoc]
        · intro k hk
          rcases List.mem_append.mp hk with hk | hk
          · exact hmidk k hk
          · simp only [List.mem_cons, List.mem_singleton, List.not_mem_nil, or_false] at hk
            rcases hk with rfl | rfl <;> simp
    obtain ⟨all, hall, hallk⟩ := hs3
    cases e2 with
    | some e =>
      exact ⟨⟨all, hall, hkinds all hallk⟩, Or.inl rfl, rfl, rfl⟩
    | none =>
      exact ⟨⟨all, hall, hkinds all hallk⟩, Or.inr rfl, rfl, rfl⟩

theorem reconcileGCSSource_terminating_creates_nothing_witness :
    sampleTerminating.meta.DeletionTimestamp ≠ none ∧
    (reconcileGCSSource modelCloud sampleTerminating (St.init sampleWorldCleanup)).2.2.log =
      [Call.GetSinkURI (some sampleSink) "ns", Call.storageNewClient,
        Call.DeleteNotification "b1" "n1", Call.pubsubNewClient "p1",
        Call.topicDelete "p1" "t1"] ∧
    (reconcileGCSSource modelCloud sampleTerminating
      (St.init sampleWorldCleanup)).2.1.Status.NotificationID = "n1" ∧
    (reconcileGCSSource modelCloud sampleTerminating
      (St.init sampleWorldCleanup)).2.1.Status.SinkURI = "" :=
  have h := reconcileGCSSource_terminating_creates_nothing modelCloud sampleTerminating
    (St.init sampleWorldCleanup) (by decide)
  ⟨by decide, rfl, h.2.2.1, h.2.2.2⟩

end GCS
